import Mathlib

/-!
# Ghost Budget — Balance Ledger & Obligation Engine, shallow embedding

A shallow embedding of the balance-maintenance trigger
(`supabase/migrations/004_add_update_trigger.sql`, `update_account_balance`),
the debt operations module (`findOrCreateCounterparty`, `createExpenseWithDebt`,
`lend`, `borrow`, `collectDebt`, `collectDebtSmart`, `repayDebt`, `forgiveDebt`),
the transaction CRUD (`updateTransaction`, `deleteTransaction`), the account
deletion check (`deleteAccount`) and the cascading delete of an obligation
relationship (`handleCascadeDelete`).

Amounts and balances are modelled as exact rationals (`ℚ`, the database column
is NUMERIC).  The relational store is a pair of lists (accounts, transactions);
an insert/update/delete of a transaction fires the balance trigger on the
accounts list exactly as the SQL trigger does.  Fallible inserts are modelled
with an explicit fault list: the n-th insert attempt fails iff the n-th fault
flag is `true`; the empty fault list is the happy path where every write
succeeds.
-/

namespace GhostBudget

/-- Account `type` column: `asset`, `savings`, `receivable`, `liability`. -/
inductive AccountType where
  | asset
  | savings
  | receivable
  | liability
deriving DecidableEq, Repr

/-- Account `status` column (`active` / `closed`). -/
inductive AccountStatus where
  | active
  | closed
deriving DecidableEq, Repr

/-- Transaction `type` column: `expense`, `income`, `transfer`, `debt_op`. -/
inductive TxType where
  | expense
  | income
  | transfer
  | debt_op
deriving DecidableEq, Repr

/-- `debt_direction` column values (`'lent'`, `'borrowed'`, `'return'`,
`'payment'`, `'forgive'`). `return` is a Lean keyword, hence `ret`. -/
inductive DebtDirection where
  | lent
  | borrowed
  | ret
  | payment
  | forgive
deriving DecidableEq, Repr

/-- A row of the `accounts` table (the columns the engine reads or writes). -/
structure Account where
  id : Nat
  user_id : Nat
  name : String
  type : AccountType
  balance : ℚ
  counterparty : Option String
  status : AccountStatus
deriving DecidableEq, Repr

/-- A row of the `transactions` table (the columns the engine reads or
writes).  `date` is a day number, `created_at` the optimistic-lock version
token. -/
structure Tx where
  id : Nat
  user_id : Nat
  date : Nat
  type : TxType
  amount : ℚ
  account_id : Option Nat
  category_id : Option Nat
  from_account_id : Option Nat
  to_account_id : Option Nat
  is_debt : Bool
  debt_direction : Option DebtDirection
  debt_counterparty : Option String
  related_account_id : Option Nat
  note : Option String
  created_at : Nat
deriving DecidableEq, Repr

/-- The relational store: the `accounts` and `transactions` tables. -/
structure Store where
  accounts : List Account
  transactions : List Tx
deriving DecidableEq, Repr

/-- Request context: the authenticated user, today's date and the `now()`
timestamp used for `created_at`. -/
structure Ctx where
  uid : Nat
  today : Nat
  now : Nat
deriving DecidableEq, Repr

/-- Errors surfaced to the caller (the JS module returns `Error` objects with
Russian messages; here each distinct failure is one constructor). -/
inductive Err where
  | invalidInput
  | notFound
  | multipleRows
  | insertFailed
  | concurrentModification
  | hasTransactions
  | alreadySettled
deriving DecidableEq, Repr

/-- The per-row effect of
`UPDATE accounts SET balance = balance + d WHERE id = accId`. -/
def bumpBalance (accId : Nat) (d : ℚ) (a : Account) : Account :=
  if a.id = accId then { a with balance := a.balance + d } else a

/-- `UPDATE accounts SET balance = balance + d WHERE id = accId`. -/
def applyDelta (accs : List Account) (accId : Nat) (d : ℚ) : List Account :=
  accs.map (bumpBalance accId d)

/-- The trigger operation (`TG_OP`) together with the OLD/NEW rows. -/
inductive TgOp where
  | ins (new : Tx)
  | upd (old new : Tx)
  | del (old : Tx)

/-- The `TG_OP = 'INSERT'` branch of `update_account_balance`: apply the new
row's effect.  An absent (`NULL`) account reference updates no row. -/
def applyInsertEffect (new : Tx) (accs : List Account) : List Account :=
  if new.type = .transfer ∨ new.type = .debt_op then
    let accs₁ := match new.from_account_id with
      | some f => applyDelta accs f (-new.amount)
      | none => accs
    match new.to_account_id with
      | some t => applyDelta accs₁ t new.amount
      | none => accs₁
  else if new.type = .expense then
    match new.account_id with
      | some a => applyDelta accs a (-new.amount)
      | none => accs
  else
    match new.account_id with
      | some a => applyDelta accs a new.amount
      | none => accs

/-- The `TG_OP = 'DELETE'` branch of `update_account_balance`: roll back the
old row's effect (the exact sign-flipped deltas of the insert branch). -/
def applyDeleteEffect (old : Tx) (accs : List Account) : List Account :=
  if old.type = .transfer ∨ old.type = .debt_op then
    let accs₁ := match old.from_account_id with
      | some f => applyDelta accs f old.amount
      | none => accs
    match old.to_account_id with
      | some t => applyDelta accs₁ t (-old.amount)
      | none => accs₁
  else if old.type = .expense then
    match old.account_id with
      | some a => applyDelta accs a old.amount
      | none => accs
  else
    match old.account_id with
      | some a => applyDelta accs a (-old.amount)
      | none => accs

/-- `public.update_account_balance()` from
`004_add_update_trigger.sql`: the AFTER INSERT OR UPDATE OR DELETE trigger on
`transactions` that maintains `accounts.balance`.  On UPDATE it acts only when
the amount changed (`OLD.amount IS DISTINCT FROM NEW.amount`), first rolling
back the OLD row then applying the NEW row. -/
def update_account_balance : TgOp → List Account → List Account
  | .ins new, accs => applyInsertEffect new accs
  | .del old, accs => applyDeleteEffect old accs
  | .upd old new, accs =>
    if old.amount ≠ new.amount then
      applyInsertEffect new (applyDeleteEffect old accs)
    else
      accs

/-- Insert a transaction row; the balance trigger fires. -/
def insertTx (s : Store) (tx : Tx) : Store :=
  { accounts := update_account_balance (.ins tx) s.accounts,
    transactions := s.transactions ++ [tx] }

/-- Delete every transaction row with the given id (`.delete().eq('id', id)`);
the balance trigger fires once per deleted row. -/
def deleteTxById (s : Store) (txId : Nat) : Store :=
  { accounts := (s.transactions.filter (fun t => t.id = txId)).foldl
      (fun accs t => update_account_balance (.del t) accs) s.accounts,
    transactions := s.transactions.filter (fun t => t.id ≠ txId) }

/-- One fallible insert attempt: consumes the head fault flag; a `true` flag
makes the insert fail (the database writes nothing), otherwise the row is
inserted and the trigger fires.  An exhausted fault list means success. -/
def attemptInsert (s : Store) (faults : List Bool) (tx : Tx) :
    Bool × Store × List Bool :=
  match faults with
  | [] => (true, insertTx s tx, [])
  | f :: rest => if f then (false, s, rest) else (true, insertTx s tx, rest)

/-- Fresh transaction id (the database generates UUIDs; the model takes the
successor of the largest id in the table). -/
def nextTxId (s : Store) : Nat :=
  (s.transactions.map Tx.id).foldr max 0 + 1

/-- Fresh account id. -/
def nextAccountId (s : Store) : Nat :=
  (s.accounts.map Account.id).foldr max 0 + 1

/-- The `debt_op` insert object shared by `collectDebt` and every branch of
`collectDebtSmart`: direction `return`, from the counterparty account to the
receiving account. -/
def returnDebtOpTx (ctx : Ctx) (txId : Nat) (amt : ℚ) (toAccountId cpAccountId : Nat)
    (counterparty : String) (note : String) : Tx :=
  { id := txId, user_id := ctx.uid, date := ctx.today, type := .debt_op,
    amount := amt, account_id := none, category_id := none,
    from_account_id := some cpAccountId, to_account_id := some toAccountId,
    is_debt := true, debt_direction := some .ret,
    debt_counterparty := some counterparty,
    related_account_id := some cpAccountId, note := some note,
    created_at := ctx.now }

/-- The ordinary income insert object of `collectDebtSmart`'s overpayment
branch (`is_debt: false`, no account links beyond the receiving account). -/
def overpayIncomeTx (ctx : Ctx) (txId : Nat) (amt : ℚ) (toAccountId : Nat)
    (counterparty : String) : Tx :=
  { id := txId, user_id := ctx.uid, date := ctx.today, type := .income,
    amount := amt, account_id := some toAccountId, category_id := none,
    from_account_id := none, to_account_id := none, is_debt := false,
    debt_direction := none, debt_counterparty := none,
    related_account_id := none,
    note := some ("Переплата от " ++ counterparty), created_at := ctx.now }

/-- The forgiveness expense insert object shared by `collectDebtSmart`'s
underpayment branch and `forgiveDebt`: an expense against the counterparty
account with direction `forgive`. -/
def forgiveExpenseTx (ctx : Ctx) (txId : Nat) (amt : ℚ) (cpAccountId : Nat)
    (counterparty : String) (categoryId : Option Nat) (note : String) : Tx :=
  { id := txId, user_id := ctx.uid, date := ctx.today, type := .expense,
    amount := amt, account_id := some cpAccountId, category_id := categoryId,
    from_account_id := none, to_account_id := none, is_debt := true,
    debt_direction := some .forgive, debt_counterparty := some counterparty,
    related_account_id := some cpAccountId, note := some note,
    created_at := ctx.now }

/-- The plain expense insert object of `createExpenseWithDebt`'s first step. -/
def plainExpenseTx (ctx : Ctx) (txId : Nat) (amt : ℚ) (accountId : Nat)
    (categoryId : Option Nat) (note : Option String) : Tx :=
  { id := txId, user_id := ctx.uid, date := ctx.today, type := .expense,
    amount := amt, account_id := some accountId, category_id := categoryId,
    from_account_id := none, to_account_id := none, is_debt := false,
    debt_direction := none, debt_counterparty := none,
    related_account_id := none, note := note, created_at := ctx.now }

/-- The `debt_op` insert object with direction `lent` shared by `lend` and
`createExpenseWithDebt`'s second step: from the paying account to the
counterparty account. -/
def lentDebtOpTx (ctx : Ctx) (txId : Nat) (amt : ℚ) (fromAccountId cpAccountId : Nat)
    (counterparty : String) (note : String) : Tx :=
  { id := txId, user_id := ctx.uid, date := ctx.today, type := .debt_op,
    amount := amt, account_id := none, category_id := none,
    from_account_id := some fromAccountId, to_account_id := some cpAccountId,
    is_debt := true, debt_direction := some .lent,
    debt_counterparty := some counterparty,
    related_account_id := some cpAccountId, note := some note,
    created_at := ctx.now }

/-- JS `String.prototype.trim`, written over the character list so that it
reduces in the kernel (Lean core's `String.trim` is defined by well-founded
recursion and does not). -/
def strTrim (s : String) : String :=
  ⟨((s.data.dropWhile Char.isWhitespace).reverse.dropWhile
      Char.isWhitespace).reverse⟩

/-- PostgREST `maybeSingle()`: `none` for zero rows, the row for one, an error
for several. -/
def maybeSingle {α : Type} (l : List α) : Except Err (Option α) :=
  match l with
  | [] => .ok none
  | [a] => .ok (some a)
  | _ :: _ :: _ => .error .multipleRows

/-- PostgREST `single()`: exactly one row or an error. -/
def single {α : Type} (l : List α) : Except Err α :=
  match l with
  | [a] => .ok a
  | [] => .error .notFound
  | _ :: _ :: _ => .error .multipleRows

/-- The rows of the accounts table with a given id
(`.select('*').eq('id', i)`). -/
def selectId (i : Nat) (accs : List Account) : List Account :=
  accs.filter (fun a => a.id == i)

/-- The filter of `findOrCreateCounterparty`'s lookup:
`.eq('user_id', uid).eq('type', type).eq('counterparty', counterparty)`. -/
def cpMatches (uid : Nat) (counterparty : String) (type : AccountType)
    (accs : List Account) : List Account :=
  accs.filter (fun a =>
    a.user_id == uid && a.type == type && a.counterparty == some counterparty)

/-- `findOrCreateCounterparty(counterparty, type, options)` from the debts
module: look the `(user, type, counterparty)` account up with `maybeSingle()`;
return it when found, otherwise insert a fresh account with balance 0 and
status `active`.  (The `obligation_kind` / `expected_return_date` options only
fill presentational columns and are not modelled.) -/
def findOrCreateCounterparty (ctx : Ctx) (counterparty : String)
    (type : AccountType) (s : Store) : (Except Err Account) × Store :=
  match maybeSingle (cpMatches ctx.uid counterparty type s.accounts) with
  | .error e => (.error e, s)
  | .ok (some existing) => (.ok existing, s)
  | .ok none =>
      let created : Account :=
        { id := nextAccountId s, user_id := ctx.uid, name := counterparty,
          type := type, balance := 0, counterparty := some counterparty,
          status := .active }
      (.ok created, { s with accounts := s.accounts ++ [created] })

/-- Result shape of `createExpenseWithDebt`: `{ expense, debt, error }`. -/
structure ExpenseWithDebtResult where
  expense : Option Tx
  debt : Option Tx
  error : Option Err
deriving DecidableEq, Repr

/-- `createExpenseWithDebt({expenseAmount, accountId, categoryId, debtAmount,
counterparty, note})`: validate, insert the full expense against the paying
account, resolve the receivable counterparty, then insert a `debt_op`
(direction `lent`) of the share from the same paying account to the
counterparty.  A failure after the first insert leaves the expense row
persisted, exactly as in the source. -/
def createExpenseWithDebt (ctx : Ctx) (expenseAmount : ℚ) (accountId : Nat)
    (categoryId : Option Nat) (debtAmount : ℚ) (counterparty : String)
    (note : Option String) (faults : List Bool) (s : Store) :
    ExpenseWithDebtResult × Store :=
  if expenseAmount ≤ 0 then
    (⟨none, none, some .invalidInput⟩, s)
  else if debtAmount ≤ 0 then
    (⟨none, none, some .invalidInput⟩, s)
  else if expenseAmount ≤ debtAmount then
    (⟨none, none, some .invalidInput⟩, s)
  else if strTrim counterparty = "" then
    (⟨none, none, some .invalidInput⟩, s)
  else
    let expenseTx : Tx :=
      plainExpenseTx ctx (nextTxId s) expenseAmount accountId categoryId note
    match attemptInsert s faults expenseTx with
    | (false, s₁, _) => (⟨none, none, some .insertFailed⟩, s₁)
    | (true, s₁, faults₁) =>
      match findOrCreateCounterparty ctx (strTrim counterparty) .receivable s₁ with
      | (.error e, s₂) => (⟨some expenseTx, none, some e⟩, s₂)
      | (.ok cp, s₂) =>
        let debtTx : Tx :=
          lentDebtOpTx ctx (nextTxId s₂) debtAmount accountId cp.id
            (strTrim counterparty) ("Доля за: " ++ note.getD "расход")
        match attemptInsert s₂ faults₁ debtTx with
        | (false, s₃, _) => (⟨some expenseTx, none, some .insertFailed⟩, s₃)
        | (true, s₃, _) => (⟨some expenseTx, some debtTx, none⟩, s₃)

/-- `lend({amount, fromAccountId, counterparty, expectedReturnDate, note})`:
resolve/create the receivable counterparty, then insert a `debt_op` with
direction `lent` from the asset account to the counterparty account. -/
def lend (ctx : Ctx) (amount : ℚ) (fromAccountId : Nat) (counterparty : String)
    (note : Option String) (faults : List Bool) (s : Store) :
    (Except Err Tx) × Store :=
  if amount ≤ 0 then (.error .invalidInput, s)
  else if strTrim counterparty = "" then (.error .invalidInput, s)
  else
    match findOrCreateCounterparty ctx (strTrim counterparty) .receivable s with
    | (.error e, s₁) => (.error e, s₁)
    | (.ok cp, s₁) =>
      let tx : Tx :=
        lentDebtOpTx ctx (nextTxId s₁) amount fromAccountId cp.id
          (strTrim counterparty) (note.getD ("Дал в долг: " ++ counterparty))
      match attemptInsert s₁ faults tx with
      | (false, s₂, _) => (.error .insertFailed, s₂)
      | (true, s₂, _) => (.ok tx, s₂)

/-- The counterparty display name read before a plain collection/repayment:
`single()` on the account's name columns, falling back to `'Unknown'` when the
row is missing (the source ignores the fetch error). -/
def cpNameOf (cpAccountId : Nat) (s : Store) : String :=
  match single (selectId cpAccountId s.accounts) with
  | .ok a => a.counterparty.getD a.name
  | .error _ => "Unknown"

/-- `collectDebt({amount, toAccountId, counterpartyAccountId, note})`: one
`debt_op` of the full requested amount from the counterparty account to the
receiving asset account, direction `return`; the outstanding balance is never
consulted. -/
def collectDebt (ctx : Ctx) (amount : ℚ) (toAccountId cpAccountId : Nat)
    (note : Option String) (faults : List Bool) (s : Store) :
    (Except Err Tx) × Store :=
  if amount ≤ 0 then (.error .invalidInput, s)
  else
    let counterparty := cpNameOf cpAccountId s
    let tx : Tx :=
      returnDebtOpTx ctx (nextTxId s) amount toAccountId cpAccountId
        counterparty (note.getD ("Возврат от: " ++ counterparty))
    match attemptInsert s faults tx with
    | (false, s₁, _) => (.error .insertFailed, s₁)
    | (true, s₁, _) => (.ok tx, s₁)

/-- Result shape of `collectDebtSmart`: the settling `debt_op`, the optional
compensating entry (income or forgiveness), the `closed` flag, and the
`excess` / `forgiven` / `remaining` figures of the taken branch. -/
structure SmartResult where
  debt : Option Tx
  second : Option Tx
  closed : Bool
  excess : Option ℚ
  forgiven : Option ℚ
  remaining : Option ℚ
  error : Option Err
deriving DecidableEq, Repr

/-- `collectDebtSmart({amount, toAccountId, counterpartyAccountId, closeDebt,
note})`: fetch the counterparty balance, then
(1) `amount > balance && balance > 0`: insert a `debt_op` of exactly
    `balance` then an ordinary income of `amount - balance`;
(2) `amount < balance && closeDebt`: insert a `debt_op` of `amount` then a
    forgiveness expense of `balance - amount` against the counterparty;
(3) otherwise one `debt_op` of `amount`, `closed = amount >= balance`.
All comparisons are strict, exactly as in the source. -/
def collectDebtSmart (ctx : Ctx) (amount : ℚ) (toAccountId cpAccountId : Nat)
    (closeDebt : Bool) (note : Option String) (faults : List Bool) (s : Store) :
    SmartResult × Store :=
  if amount ≤ 0 then
    (⟨none, none, false, none, none, none, some .invalidInput⟩, s)
  else
    match single (selectId cpAccountId s.accounts) with
    | .error e => (⟨none, none, false, none, none, none, some e⟩, s)
    | .ok cp =>
      let balance := cp.balance
      let counterparty := cp.counterparty.getD cp.name
      if balance < amount ∧ 0 < balance then
        let excess := amount - balance
        let debtTx : Tx :=
          returnDebtOpTx ctx (nextTxId s) balance toAccountId cpAccountId
            counterparty (note.getD ("Возврат от: " ++ counterparty))
        match attemptInsert s faults debtTx with
        | (false, s₁, _) =>
          (⟨none, none, false, none, none, none, some .insertFailed⟩, s₁)
        | (true, s₁, faults₁) =>
          let incomeTx : Tx :=
            overpayIncomeTx ctx (nextTxId s₁) excess toAccountId counterparty
          match attemptInsert s₁ faults₁ incomeTx with
          | (false, s₂, _) =>
            (⟨some debtTx, none, true, some excess, none, none,
              some .insertFailed⟩, s₂)
          | (true, s₂, _) =>
            (⟨some debtTx, some incomeTx, true, some excess, none, none,
              none⟩, s₂)
      else if amount < balance ∧ closeDebt then
        let forgiven := balance - amount
        let debtTx : Tx :=
          returnDebtOpTx ctx (nextTxId s) amount toAccountId cpAccountId
            counterparty (note.getD ("Частичный возврат от: " ++ counterparty))
        match attemptInsert s faults debtTx with
        | (false, s₁, _) =>
          (⟨none, none, false, none, none, none, some .insertFailed⟩, s₁)
        | (true, s₁, faults₁) =>
          let forgiveTx : Tx :=
            forgiveExpenseTx ctx (nextTxId s₁) forgiven cpAccountId
              counterparty none ("Списал долг: " ++ counterparty)
          match attemptInsert s₁ faults₁ forgiveTx with
          | (false, s₂, _) =>
            (⟨some debtTx, none, true, none, some forgiven, none,
              some .insertFailed⟩, s₂)
          | (true, s₂, _) =>
            (⟨some debtTx, some forgiveTx, true, none, some forgiven, none,
              none⟩, s₂)
      else
        let tx : Tx :=
          returnDebtOpTx ctx (nextTxId s) amount toAccountId cpAccountId
            counterparty (note.getD ("Возврат от: " ++ counterparty))
        match attemptInsert s faults tx with
        | (false, s₁, _) =>
          (⟨none, none, false, none, none, none, some .insertFailed⟩, s₁)
        | (true, s₁, _) =>
          (⟨some tx, none, decide (balance ≤ amount), none, none,
            some (balance - amount), none⟩, s₁)

/-- `borrow({amount, toAccountId, counterparty, ...})`: resolve/create the
liability counterparty, then insert a `debt_op` with direction `borrowed`
from the liability account to the receiving asset account. -/
def borrow (ctx : Ctx) (amount : ℚ) (toAccountId : Nat) (counterparty : String)
    (note : Option String) (faults : List Bool) (s : Store) :
    (Except Err Tx) × Store :=
  if amount ≤ 0 then (.error .invalidInput, s)
  else if strTrim counterparty = "" then (.error .invalidInput, s)
  else
    match findOrCreateCounterparty ctx (strTrim counterparty) .liability s with
    | (.error e, s₁) => (.error e, s₁)
    | (.ok cp, s₁) =>
      let tx : Tx :=
        { id := nextTxId s₁, user_id := ctx.uid, date := ctx.today,
          type := .debt_op, amount := amount, account_id := none,
          category_id := none, from_account_id := some cp.id,
          to_account_id := some toAccountId, is_debt := true,
          debt_direction := some .borrowed,
          debt_counterparty := some (strTrim counterparty),
          related_account_id := some cp.id,
          note := some (note.getD ("Занял у: " ++ counterparty)),
          created_at := ctx.now }
      match attemptInsert s₁ faults tx with
      | (false, s₂, _) => (.error .insertFailed, s₂)
      | (true, s₂, _) => (.ok tx, s₂)

/-- `repayDebt({amount, fromAccountId, counterpartyAccountId, note})`: one
`debt_op` of the full requested amount from the paying asset account to the
liability account, direction `payment`. -/
def repayDebt (ctx : Ctx) (amount : ℚ) (fromAccountId cpAccountId : Nat)
    (note : Option String) (faults : List Bool) (s : Store) :
    (Except Err Tx) × Store :=
  if amount ≤ 0 then (.error .invalidInput, s)
  else
    let counterparty := cpNameOf cpAccountId s
    let tx : Tx :=
      { id := nextTxId s, user_id := ctx.uid, date := ctx.today,
        type := .debt_op, amount := amount, account_id := none,
        category_id := none, from_account_id := some fromAccountId,
        to_account_id := some cpAccountId, is_debt := true,
        debt_direction := some .payment, debt_counterparty := some counterparty,
        related_account_id := some cpAccountId,
        note := some (note.getD ("Вернул: " ++ counterparty)),
        created_at := ctx.now }
    match attemptInsert s faults tx with
    | (false, s₁, _) => (.error .insertFailed, s₁)
    | (true, s₁, _) => (.ok tx, s₁)

/-- Result shape of `forgiveDebt`: `{ data, error }`. -/
structure ForgiveResult where
  data : Option Tx
  error : Option Err
deriving DecidableEq, Repr

/-- `forgiveDebt({counterpartyAccountId, categoryId, note})`: fetch the
account, reject with `'Долг уже погашен'` when the absolute remaining balance
is below 0.01, otherwise insert a forgiveness expense of that absolute amount
against the counterparty account and then set the account to
`{status: 'closed', balance: 0}`. -/
def forgiveDebt (ctx : Ctx) (cpAccountId : Nat) (categoryId : Option Nat)
    (note : Option String) (faults : List Bool) (s : Store) :
    ForgiveResult × Store :=
  match single (selectId cpAccountId s.accounts) with
  | .error e => (⟨none, some e⟩, s)
  | .ok cp =>
    let remainingAmount := |cp.balance|
    if remainingAmount < 1/100 then
      (⟨none, some .alreadySettled⟩, s)
    else
      let counterparty := cp.counterparty.getD cp.name
      let tx : Tx :=
        forgiveExpenseTx ctx (nextTxId s) remainingAmount cpAccountId
          counterparty categoryId (note.getD ("Списал долг: " ++ counterparty))
      match attemptInsert s faults tx with
      | (false, s₁, _) => (⟨none, some .insertFailed⟩, s₁)
      | (true, s₁, _) =>
        (⟨some tx, none⟩,
         { s₁ with accounts := s₁.accounts.map (fun a =>
             if a.id = cpAccountId then
               { a with status := .closed, balance := 0 }
             else a) })

/-- The editable fields of `updateTransaction` (`amount`, `date`,
`category_id`, `note`); `none` leaves the stored value unchanged. -/
structure TxUpdates where
  amount : Option ℚ
  date : Option Nat
  category_id : Option (Option Nat)
  note : Option (Option String)
deriving DecidableEq, Repr

/-- Apply the allowed updates to a row; `type`, account references and
`created_at` are immutable. -/
def applyUpdates (u : TxUpdates) (t : Tx) : Tx :=
  { t with amount := u.amount.getD t.amount, date := u.date.getD t.date,
           category_id := u.category_id.getD t.category_id,
           note := u.note.getD t.note }

/-- `updateTransaction(id, updates, expectedCreatedAt)`: the UPDATE is
conditioned on `id` and, when a version token is supplied, on `created_at`
still matching it; the balance trigger fires per updated row; zero matching
rows surface the concurrent-modification error. -/
def updateTransaction (txId : Nat) (u : TxUpdates)
    (expectedCreatedAt : Option Nat) (s : Store) : (Except Err Tx) × Store :=
  let pred : Tx → Bool := fun t =>
    t.id == txId &&
      (match expectedCreatedAt with
       | some v => t.created_at == v
       | none => true)
  let matched := s.transactions.filter pred
  let s' : Store :=
    { accounts := matched.foldl
        (fun accs t => update_account_balance (.upd t (applyUpdates u t)) accs)
        s.accounts,
      transactions := s.transactions.map
        (fun t => if pred t then applyUpdates u t else t) }
  match matched with
  | [t] => (.ok (applyUpdates u t), s')
  | [] => (.error .concurrentModification, s')
  | _ :: _ :: _ => (.error .multipleRows, s')

/-- `deleteTransaction(id)` from the transactions module. -/
def deleteTransaction (txId : Nat) (s : Store) : Store :=
  deleteTxById s txId

/-- `deleteAccount(id)` from the accounts module: refuse when any transaction
still references the account by `account_id`, `from_account_id` or
`to_account_id`; otherwise delete the account row. -/
def deleteAccount (accountId : Nat) (s : Store) : (Option Err) × Store :=
  let referencing := s.transactions.filter (fun t =>
    t.account_id == some accountId || t.from_account_id == some accountId ||
      t.to_account_id == some accountId)
  if referencing.isEmpty then
    (none, { s with accounts := s.accounts.filter (fun a => a.id != accountId) })
  else
    (some .hasTransactions, s)

/-- The ordering of `getTransactions`:
`.order('date', desc).order('created_at', desc)`. -/
def txKeyGe (a b : Tx) : Bool :=
  decide (b.date < a.date) ||
    (b.date == a.date && decide (b.created_at ≤ a.created_at))

/-- Stable insertion into a list sorted descending by `txKeyGe`. -/
def insertKeyDesc (t : Tx) : List Tx → List Tx
  | [] => [t]
  | u :: us => if txKeyGe t u then t :: u :: us else u :: insertKeyDesc t us

/-- Stable descending sort by `(date, created_at)`. -/
def sortKeyDesc : List Tx → List Tx
  | [] => []
  | t :: ts => insertKeyDesc t (sortKeyDesc ts)

/-- The in-memory re-sort of `handleCascadeDelete`:
`sort((a, b) => new Date(b.date) - new Date(a.date))`, stable, date only. -/
def txDateGe (a b : Tx) : Bool :=
  decide (b.date ≤ a.date)

/-- Stable insertion into a list sorted descending by date. -/
def insertDateDesc (t : Tx) : List Tx → List Tx
  | [] => [t]
  | u :: us => if txDateGe t u then t :: u :: us else u :: insertDateDesc t us

/-- Stable descending sort by date. -/
def sortDateDesc : List Tx → List Tx
  | [] => []
  | t :: ts => insertDateDesc t (sortDateDesc ts)

/-- `getTransactions({limit})` as used by the cascade: the current user's
transactions ordered by date then `created_at`, both descending, truncated to
the requested limit. -/
def getTransactionsLimited (uid limit : Nat) (s : Store) : List Tx :=
  (sortKeyDesc (s.transactions.filter (fun t => t.user_id == uid))).take limit

/-- The relatedness test of the cascade:
`related_account_id`, `from_account_id` or `to_account_id` equals the
obligation's counterparty account. -/
def isRelatedTo (accountId : Nat) (t : Tx) : Bool :=
  t.related_account_id == some accountId ||
    t.from_account_id == some accountId || t.to_account_id == some accountId

/-- `handleCascadeDelete` from the transactions form controller: fetch the
user's transactions with `{limit: 1000}`, keep those related to the
counterparty account, sort them by date descending, delete them one at a time,
then delete the account itself.  Returns the deletion order alongside the
account-deletion outcome. -/
def handleCascadeDelete (ctx : Ctx) (accountId : Nat) (s : Store) :
    (List Tx × Option Err) × Store :=
  let allTx := getTransactionsLimited ctx.uid 1000 s
  let relatedTx := allTx.filter (isRelatedTo accountId)
  let sorted := sortDateDesc relatedTx
  let s₁ := sorted.foldl (fun st t => deleteTransaction t.id st) s
  let res := deleteAccount accountId s₁
  ((sorted, res.1), res.2)

section Lemmas

theorem bumpBalance_id (a : Account) (j : Nat) (d : ℚ) :
    (bumpBalance j d a).id = a.id := by
  unfold bumpBalance
  by_cases h : a.id = j <;> simp [h]

theorem bumpBalance_self (a : Account) (d : ℚ) (h : a.id = j) :
    bumpBalance j d a = { a with balance := a.balance + d } := by
  simp [bumpBalance, h]

theorem bumpBalance_other (a : Account) (d : ℚ) (h : a.id ≠ j) :
    bumpBalance j d a = a := by
  simp [bumpBalance, h]

theorem bumpBalance_cancel (i : Nat) (d : ℚ) (a : Account) :
    bumpBalance i (-d) (bumpBalance i d a) = a := by
  obtain ⟨aid, au, an, aty, ab, ac, ast⟩ := a
  by_cases h : aid = i <;> simp [bumpBalance, h]

theorem bumpBalance_comm (i j : Nat) (d e : ℚ) (a : Account) :
    bumpBalance j e (bumpBalance i d a) = bumpBalance i d (bumpBalance j e a) := by
  obtain ⟨aid, au, an, aty, ab, ac, ast⟩ := a
  by_cases hi : aid = i
  · by_cases hj : aid = j
    · subst hi; subst hj; simp [bumpBalance, add_right_comm]
    · subst hi; simp [bumpBalance, hj]
  · by_cases hj : aid = j
    · subst hj; simp [bumpBalance, hi]
    · simp [bumpBalance, hi, hj]

theorem applyDelta_cancel (accs : List Account) (i : Nat) (d : ℚ) :
    applyDelta (applyDelta accs i d) i (-d) = accs := by
  induction accs with
  | nil => rfl
  | cons a l ih =>
    simp only [applyDelta, List.map_cons] at ih ⊢
    exact congrArg₂ (· :: ·) (bumpBalance_cancel i d a) ih

theorem applyDelta_cancel' (accs : List Account) (i : Nat) (d : ℚ) :
    applyDelta (applyDelta accs i (-d)) i d = accs := by
  have h := applyDelta_cancel accs i (-d)
  rwa [neg_neg] at h

theorem applyDelta_comm (accs : List Account) (i j : Nat) (d e : ℚ) :
    applyDelta (applyDelta accs i d) j e = applyDelta (applyDelta accs j e) i d := by
  induction accs with
  | nil => rfl
  | cons a l ih =>
    simp only [applyDelta, List.map_cons] at ih ⊢
    exact congrArg₂ (· :: ·) (bumpBalance_comm i j d e a) ih

/-- The delete branch of the balance trigger undoes the insert branch
exactly, for every transaction shape. -/
theorem applyDeleteEffect_applyInsertEffect (tx : Tx) (accs : List Account) :
    applyDeleteEffect tx (applyInsertEffect tx accs) = accs := by
  unfold applyInsertEffect applyDeleteEffect
  by_cases ht : tx.type = .transfer ∨ tx.type = .debt_op
  · simp only [if_pos ht]
    cases hf : tx.from_account_id with
    | none =>
      cases hto : tx.to_account_id with
      | none => rfl
      | some t => dsimp only; exact applyDelta_cancel accs t tx.amount
    | some f =>
      cases hto : tx.to_account_id with
      | none => dsimp only; exact applyDelta_cancel' accs f tx.amount
      | some t =>
        dsimp only
        rw [applyDelta_comm (applyDelta accs f (-tx.amount)) t f tx.amount tx.amount,
          applyDelta_cancel' accs f tx.amount, applyDelta_cancel accs t tx.amount]
  · by_cases he : tx.type = .expense
    · simp only [if_neg ht, if_pos he]
      cases ha : tx.account_id with
      | none => rfl
      | some a => dsimp only; exact applyDelta_cancel' accs a tx.amount
    · simp only [if_neg ht, if_neg he]
      cases ha : tx.account_id with
      | none => rfl
      | some a => dsimp only; exact applyDelta_cancel accs a tx.amount

theorem selectId_mem_id {i : Nat} {accs : List Account} {a : Account}
    (h : a ∈ selectId i accs) : a.id = i := by
  simp only [selectId, List.mem_filter, beq_iff_eq] at h
  exact h.2

theorem mem_selectId {i : Nat} {accs : List Account} {a : Account}
    (ha : a ∈ accs) (hid : a.id = i) : a ∈ selectId i accs :=
  List.mem_filter.mpr ⟨ha, by simp [hid]⟩

theorem selectId_applyDelta (i j : Nat) (d : ℚ) (accs : List Account) :
    selectId i (applyDelta accs j d) = (selectId i accs).map (bumpBalance j d) := by
  induction accs with
  | nil => rfl
  | cons a l ih =>
    simp only [selectId, applyDelta, List.map_cons, List.filter_cons] at ih ⊢
    rw [bumpBalance_id]
    by_cases h : a.id = i
    · simp [h, ih]
    · simp [h, ih]

theorem selectId_applyDelta_ne (i j : Nat) (h : i ≠ j) (d : ℚ)
    (accs : List Account) :
    selectId i (applyDelta accs j d) = selectId i accs := by
  rw [selectId_applyDelta]
  calc (selectId i accs).map (bumpBalance j d)
      = (selectId i accs).map id :=
        List.map_congr_left (fun a ha =>
          bumpBalance_other a d (by rw [selectId_mem_id ha]; exact h))
    _ = selectId i accs := List.map_id _

theorem bumpBalance_user_id (a : Account) (j : Nat) (d : ℚ) :
    (bumpBalance j d a).user_id = a.user_id := by
  unfold bumpBalance
  by_cases h : a.id = j <;> simp [h]

theorem bumpBalance_type (a : Account) (j : Nat) (d : ℚ) :
    (bumpBalance j d a).type = a.type := by
  unfold bumpBalance
  by_cases h : a.id = j <;> simp [h]

theorem bumpBalance_counterparty (a : Account) (j : Nat) (d : ℚ) :
    (bumpBalance j d a).counterparty = a.counterparty := by
  unfold bumpBalance
  by_cases h : a.id = j <;> simp [h]

theorem cpMatches_applyDelta (uid : Nat) (name : String) (t : AccountType)
    (j : Nat) (d : ℚ) (accs : List Account) :
    cpMatches uid name t (applyDelta accs j d) =
      (cpMatches uid name t accs).map (bumpBalance j d) := by
  induction accs with
  | nil => rfl
  | cons a l ih =>
    simp only [cpMatches, applyDelta, List.map_cons, List.filter_cons] at ih ⊢
    rw [bumpBalance_user_id, bumpBalance_type, bumpBalance_counterparty]
    cases hb : (a.user_id == uid && a.type == t && (a.counterparty == some name)) <;>
      simp [hb, ih]

theorem selectId_applyDelta_self (i : Nat) (d : ℚ) (accs : List Account)
    (cp : Account) (h : selectId i accs = [cp]) :
    selectId i (applyDelta accs i d) = [{ cp with balance := cp.balance + d }] := by
  have hid : cp.id = i := selectId_mem_id (by rw [h]; exact List.mem_singleton_self cp)
  rw [selectId_applyDelta, h, List.map_singleton, bumpBalance_self cp d hid]

/-- Evaluation of `collectDebtSmart`'s overpayment branch
(`amount > balance && balance > 0`, all writes succeeding). -/
theorem collectDebtSmart_overpay_run (ctx : Ctx) (amount : ℚ) (toId cpId : Nat)
    (closeDebt : Bool) (note : Option String) (s : Store) (cp : Account)
    (hsel : selectId cpId s.accounts = [cp]) (hamt : 0 < amount)
    (h1 : cp.balance < amount) (h2 : 0 < cp.balance) :
    collectDebtSmart ctx amount toId cpId closeDebt note [] s =
      (⟨some (returnDebtOpTx ctx (nextTxId s) cp.balance toId cpId
            (cp.counterparty.getD cp.name)
            (note.getD ("Возврат от: " ++ cp.counterparty.getD cp.name))),
        some (overpayIncomeTx ctx
            (nextTxId (insertTx s (returnDebtOpTx ctx (nextTxId s) cp.balance
              toId cpId (cp.counterparty.getD cp.name)
              (note.getD ("Возврат от: " ++ cp.counterparty.getD cp.name)))))
            (amount - cp.balance) toId (cp.counterparty.getD cp.name)),
        true, some (amount - cp.balance), none, none, none⟩,
       ⟨applyDelta (applyDelta (applyDelta s.accounts cpId (-cp.balance))
            toId cp.balance) toId (amount - cp.balance),
        s.transactions ++
          [returnDebtOpTx ctx (nextTxId s) cp.balance toId cpId
            (cp.counterparty.getD cp.name)
            (note.getD ("Возврат от: " ++ cp.counterparty.getD cp.name)),
           overpayIncomeTx ctx
            (nextTxId (insertTx s (returnDebtOpTx ctx (nextTxId s) cp.balance
              toId cpId (cp.counterparty.getD cp.name)
              (note.getD ("Возврат от: " ++ cp.counterparty.getD cp.name)))))
            (amount - cp.balance) toId (cp.counterparty.getD cp.name)]⟩) := by
  simp [collectDebtSmart, hsel, single, not_le.mpr hamt, h1, h2, attemptInsert,
    insertTx, update_account_balance, applyInsertEffect, returnDebtOpTx,
    overpayIncomeTx]

/-- Evaluation of `collectDebtSmart`'s underpayment-with-closure branch
(`amount < balance && closeDebt`, all writes succeeding). -/
theorem collectDebtSmart_underpay_run (ctx : Ctx) (amount : ℚ) (toId cpId : Nat)
    (note : Option String) (s : Store) (cp : Account)
    (hsel : selectId cpId s.accounts = [cp]) (hamt : 0 < amount)
    (h1 : amount < cp.balance) :
    collectDebtSmart ctx amount toId cpId true note [] s =
      (⟨some (returnDebtOpTx ctx (nextTxId s) amount toId cpId
            (cp.counterparty.getD cp.name)
            (note.getD ("Частичный возврат от: " ++ cp.counterparty.getD cp.name))),
        some (forgiveExpenseTx ctx
            (nextTxId (insertTx s (returnDebtOpTx ctx (nextTxId s) amount
              toId cpId (cp.counterparty.getD cp.name)
              (note.getD ("Частичный возврат от: " ++ cp.counterparty.getD cp.name)))))
            (cp.balance - amount) cpId (cp.counterparty.getD cp.name) none
            ("Списал долг: " ++ cp.counterparty.getD cp.name)),
        true, none, some (cp.balance - amount), none, none⟩,
       ⟨applyDelta (applyDelta (applyDelta s.accounts cpId (-amount))
            toId amount) cpId (-(cp.balance - amount)),
        s.transactions ++
          [returnDebtOpTx ctx (nextTxId s) amount toId cpId
            (cp.counterparty.getD cp.name)
            (note.getD ("Частичный возврат от: " ++ cp.counterparty.getD cp.name)),
           forgiveExpenseTx ctx
            (nextTxId (insertTx s (returnDebtOpTx ctx (nextTxId s) amount
              toId cpId (cp.counterparty.getD cp.name)
              (note.getD ("Частичный возврат от: " ++ cp.counterparty.getD cp.name)))))
            (cp.balance - amount) cpId (cp.counterparty.getD cp.name) none
            ("Списал долг: " ++ cp.counterparty.getD cp.name)]⟩) := by
  have hno : ¬ (cp.balance < amount ∧ 0 < cp.balance) := by
    intro h; exact absurd h.1 (not_lt.mpr h1.le)
  simp [collectDebtSmart, hsel, single, not_le.mpr hamt, hno, h1, attemptInsert,
    insertTx, update_account_balance, applyInsertEffect, returnDebtOpTx,
    forgiveExpenseTx]

/-- Evaluation of `collectDebtSmart`'s plain branch (neither overpayment nor
forced closure; all writes succeeding): one `debt_op` of the requested
amount. -/
theorem collectDebtSmart_normal_run (ctx : Ctx) (amount : ℚ) (toId cpId : Nat)
    (closeDebt : Bool) (note : Option String) (s : Store) (cp : Account)
    (hsel : selectId cpId s.accounts = [cp]) (hamt : 0 < amount)
    (hno1 : ¬ (cp.balance < amount ∧ 0 < cp.balance))
    (hno2 : ¬ (amount < cp.balance ∧ closeDebt = true)) :
    collectDebtSmart ctx amount toId cpId closeDebt note [] s =
      (⟨some (returnDebtOpTx ctx (nextTxId s) amount toId cpId
            (cp.counterparty.getD cp.name)
            (note.getD ("Возврат от: " ++ cp.counterparty.getD cp.name))),
        none, decide (cp.balance ≤ amount), none, none,
        some (cp.balance - amount), none⟩,
       ⟨applyDelta (applyDelta s.accounts cpId (-amount)) toId amount,
        s.transactions ++
          [returnDebtOpTx ctx (nextTxId s) amount toId cpId
            (cp.counterparty.getD cp.name)
            (note.getD ("Возврат от: " ++ cp.counterparty.getD cp.name))]⟩) := by
  simp [collectDebtSmart, hsel, single, not_le.mpr hamt, hno1, hno2,
    attemptInsert, insertTx, update_account_balance, applyInsertEffect,
    returnDebtOpTx]

theorem applyDelta_map_id (accs : List Account) (j : Nat) (d : ℚ) :
    (applyDelta accs j d).map Account.id = accs.map Account.id := by
  unfold applyDelta
  rw [List.map_map]
  exact List.map_congr_left (fun a _ => bumpBalance_id a j d)

theorem applyInsertEffect_map_id (tx : Tx) (accs : List Account) :
    (applyInsertEffect tx accs).map Account.id = accs.map Account.id := by
  unfold applyInsertEffect
  by_cases ht : tx.type = .transfer ∨ tx.type = .debt_op
  · simp only [if_pos ht]
    cases tx.from_account_id <;> cases tx.to_account_id <;>
      simp [applyDelta_map_id]
  · by_cases he : tx.type = .expense
    · simp only [if_neg ht, if_pos he]
      cases tx.account_id <;> simp [applyDelta_map_id]
    · simp only [if_neg ht, if_neg he]
      cases tx.account_id <;> simp [applyDelta_map_id]

theorem applyDeleteEffect_map_id (tx : Tx) (accs : List Account) :
    (applyDeleteEffect tx accs).map Account.id = accs.map Account.id := by
  unfold applyDeleteEffect
  by_cases ht : tx.type = .transfer ∨ tx.type = .debt_op
  · simp only [if_pos ht]
    cases tx.from_account_id <;> cases tx.to_account_id <;>
      simp [applyDelta_map_id]
  · by_cases he : tx.type = .expense
    · simp only [if_neg ht, if_pos he]
      cases tx.account_id <;> simp [applyDelta_map_id]
    · simp only [if_neg ht, if_neg he]
      cases tx.account_id <;> simp [applyDelta_map_id]

theorem update_account_balance_map_id (op : TgOp) (accs : List Account) :
    (update_account_balance op accs).map Account.id = accs.map Account.id := by
  cases op with
  | ins tx => exact applyInsertEffect_map_id tx accs
  | del tx => exact applyDeleteEffect_map_id tx accs
  | upd o n =>
    unfold update_account_balance
    by_cases h : o.amount ≠ n.amount <;>
      simp [h, applyInsertEffect_map_id, applyDeleteEffect_map_id]

theorem le_foldr_max {n : Nat} {l : List Nat} (h : n ∈ l) :
    n ≤ l.foldr max 0 := by
  induction l with
  | nil => cases h
  | cons a t ih =>
    rcases List.mem_cons.mp h with rfl | hm
    · exact le_max_left _ _
    · exact le_trans (ih hm) (le_max_right _ _)

theorem mem_id_lt_nextAccountId {s : Store} {a : Account}
    (h : a ∈ s.accounts) : a.id < nextAccountId s :=
  Nat.lt_succ_of_le (le_foldr_max (List.mem_map_of_mem Account.id h))

theorem selectId_nextAccountId (s : Store) :
    selectId (nextAccountId s) s.accounts = [] := by
  refine List.filter_eq_nil_iff.mpr (fun a ha => ?_)
  simp only [beq_iff_eq]
  exact Nat.ne_of_lt (mem_id_lt_nextAccountId ha)

theorem nextAccountId_insertTx (s : Store) (tx : Tx) :
    nextAccountId (insertTx s tx) = nextAccountId s := by
  simp [nextAccountId, insertTx, update_account_balance_map_id]

theorem selectId_append (i : Nat) (l₁ l₂ : List Account) :
    selectId i (l₁ ++ l₂) = selectId i l₁ ++ selectId i l₂ := by
  simp [selectId, List.filter_append]

theorem selectId_map_of_id (f : Account → Account)
    (hf : ∀ a, (f a).id = a.id) (i : Nat) (accs : List Account) :
    selectId i (accs.map f) = (selectId i accs).map f := by
  induction accs with
  | nil => rfl
  | cons a l ih =>
    simp only [selectId, List.map_cons, List.filter_cons] at ih ⊢
    rw [hf]
    by_cases h : a.id = i <;> simp [h, ih]

theorem insertKeyDesc_perm (t : Tx) (l : List Tx) :
    (insertKeyDesc t l).Perm (t :: l) := by
  induction l with
  | nil => exact List.Perm.refl _
  | cons u us ih =>
    unfold insertKeyDesc
    by_cases h : txKeyGe t u = true
    · rw [if_pos h]
    · rw [if_neg h]
      exact (ih.cons u).trans (List.Perm.swap t u us)

theorem sortKeyDesc_perm (l : List Tx) : (sortKeyDesc l).Perm l := by
  induction l with
  | nil => exact List.Perm.refl _
  | cons t ts ih =>
    exact (insertKeyDesc_perm t (sortKeyDesc ts)).trans (ih.cons t)

theorem insertDateDesc_perm (t : Tx) (l : List Tx) :
    (insertDateDesc t l).Perm (t :: l) := by
  induction l with
  | nil => exact List.Perm.refl _
  | cons u us ih =>
    unfold insertDateDesc
    by_cases h : txDateGe t u = true
    · rw [if_pos h]
    · rw [if_neg h]
      exact (ih.cons u).trans (List.Perm.swap t u us)

theorem sortDateDesc_perm (l : List Tx) : (sortDateDesc l).Perm l := by
  induction l with
  | nil => exact List.Perm.refl _
  | cons t ts ih =>
    exact (insertDateDesc_perm t (sortDateDesc ts)).trans (ih.cons t)

theorem mem_insertDateDesc {x t : Tx} {l : List Tx}
    (h : x ∈ insertDateDesc t l) : x = t ∨ x ∈ l :=
  List.mem_cons.mp ((insertDateDesc_perm t l).mem_iff.mp h)

theorem pairwise_insertDateDesc (t : Tx) (l : List Tx)
    (h : l.Pairwise (fun a b => b.date ≤ a.date)) :
    (insertDateDesc t l).Pairwise (fun a b => b.date ≤ a.date) := by
  induction l with
  | nil => simp [insertDateDesc]
  | cons u us ih =>
    unfold insertDateDesc
    by_cases hge : txDateGe t u = true
    · rw [if_pos hge]
      have hut : u.date ≤ t.date := of_decide_eq_true hge
      refine List.Pairwise.cons ?_ h
      intro b hb
      rcases List.mem_cons.mp hb with rfl | hbus
      · exact hut
      · exact le_trans ((List.pairwise_cons.mp h).1 b hbus) hut
    · rw [if_neg hge]
      have htu : t.date ≤ u.date := by
        have : ¬ u.date ≤ t.date := fun hc => hge (decide_eq_true hc)
        exact le_of_lt (not_le.mp this)
      refine List.Pairwise.cons ?_ (ih (List.pairwise_cons.mp h).2)
      intro b hb
      rcases mem_insertDateDesc hb with rfl | hbus
      · exact htu
      · exact (List.pairwise_cons.mp h).1 b hbus

theorem pairwise_sortDateDesc (l : List Tx) :
    (sortDateDesc l).Pairwise (fun a b => b.date ≤ a.date) := by
  induction l with
  | nil => simp [sortDateDesc]
  | cons t ts ih => exact pairwise_insertDateDesc t _ ih

theorem foldl_trigger_del_map_id (rows : List Tx) (accs : List Account) :
    (rows.foldl (fun a t => update_account_balance (.del t) a) accs).map
      Account.id = accs.map Account.id := by
  induction rows generalizing accs with
  | nil => rfl
  | cons r rs ih => rw [List.foldl_cons, ih, update_account_balance_map_id]

theorem foldl_delete_accounts_map_id (L : List Tx) (s : Store) :
    ((L.foldl (fun st t => deleteTransaction t.id st) s).accounts).map
      Account.id = s.accounts.map Account.id := by
  induction L generalizing s with
  | nil => rfl
  | cons r L' ih =>
    rw [List.foldl_cons, ih]
    simp [deleteTransaction, deleteTxById, foldl_trigger_del_map_id]

theorem foldl_delete_transactions (L : List Tx) (s : Store) :
    (L.foldl (fun st t => deleteTransaction t.id st) s).transactions
      = s.transactions.filter (fun t => L.all (fun r => t.id != r.id)) := by
  induction L generalizing s with
  | nil => simp
  | cons r L' ih =>
    rw [List.foldl_cons, ih]
    show ((deleteTxById s r.id).transactions).filter _ = _
    simp only [deleteTxById]
    rw [List.filter_filter]
    refine List.filter_congr (fun t ht => ?_)
    have hdb : ∀ a b : Nat, decide (a = b) = (a == b) := fun a b => by
      rw [Bool.eq_iff_iff]; simp
    simp [List.all_cons, Bool.and_comm, bne, hdb]

theorem map_id_filter_ne (accs : List Account) (cpId : Nat) :
    ((accs.filter (fun a => a.id != cpId)).map Account.id)
      = (accs.map Account.id).filter (fun i => i != cpId) := by
  induction accs with
  | nil => rfl
  | cons a l ih =>
    simp only [List.map_cons, List.filter_cons]
    by_cases h : a.id = cpId <;> simp [h, ih]

end Lemmas

/-- C4: For every entry and every account state, inserting the entry through
the balance-maintenance trigger and then deleting it restores every touched
account's balance exactly to its pre-insert value: the DELETE branch of
`update_account_balance` applies the precise inverse deltas of the INSERT
branch for every entry kind (expense, income, transfer, obligation
operation). -/
theorem C4_insert_then_delete_restores_balances (tx : Tx) (accs : List Account) :
    update_account_balance (.del tx) (update_account_balance (.ins tx) accs) = accs :=
  applyDeleteEffect_applyInsertEffect tx accs

/-- Demo receivable relationship "Alex" with 300 outstanding. -/
def alexAcc : Account :=
  { id := 1, user_id := 0, name := "Alex", type := .receivable, balance := 300,
    counterparty := some "Alex", status := .active }

/-- Demo asset account "Cash". -/
def cashAcc : Account :=
  { id := 2, user_id := 0, name := "Cash", type := .asset, balance := 0,
    counterparty := none, status := .active }

/-- Demo store: one receivable (balance 300) and one asset account. -/
def demoStore : Store :=
  { accounts := [alexAcc, cashAcc], transactions := [] }

/-- Demo request context. -/
def demoCtx : Ctx :=
  { uid := 0, today := 10, now := 100 }

/-- C1 counterexample: the sign invariants are not preserved by every
operation.  On a store whose receivable "Alex" holds 300 and whose asset
"Cash" holds 0, plain `collectDebt` of 500 (more than the outstanding
balance) succeeds and leaves the receivable at −200 < 0: the balance trigger
applies the full amount unconditionally and no operation checks the sign. -/
theorem C1_counterexample :
    demoStore.accounts.map Account.type = [.receivable, .asset] ∧
    demoStore.accounts.map Account.balance = [300, 0] ∧
    (collectDebt demoCtx 500 2 1 none [] demoStore).2.accounts.map Account.type
      = [.receivable, .asset] ∧
    (collectDebt demoCtx 500 2 1 none [] demoStore).2.accounts.map Account.balance
      = [-200, 500] ∧
    (-200 : ℚ) < 0 := by
  refine ⟨?_, ?_, ?_, ?_, by norm_num⟩ <;>
    simp [collectDebt, cpNameOf, single, selectId, attemptInsert, insertTx,
      update_account_balance, applyInsertEffect, applyDelta, bumpBalance,
      returnDebtOpTx, demoStore, alexAcc, cashAcc, demoCtx, nextTxId] <;>
    norm_num

/-- C1 (amended): the code does not enforce the sign invariants — plain
`collectDebt` with an amount exceeding the outstanding balance drives a
receivable negative (see the counterexample).  What does hold: when the
counterparty account has a strictly positive balance, `collectDebtSmart`
leaves it non-negative in every branch (0 after an overpayment or a forced
closure, `balance − amount ≥ 0` otherwise). -/
theorem C1_amended_collectDebtSmart_keeps_counterparty_nonneg (ctx : Ctx)
    (amount : ℚ) (toId cpId : Nat) (closeDebt : Bool) (note : Option String)
    (s : Store) (cp : Account) (hsel : selectId cpId s.accounts = [cp])
    (hbal : 0 < cp.balance) (hamt : 0 < amount) (hne : toId ≠ cpId) :
    ∀ a ∈ (collectDebtSmart ctx amount toId cpId closeDebt note [] s).2.accounts,
      a.id = cpId → 0 ≤ a.balance := by
  have hcpne : cpId ≠ toId := fun h => hne h.symm
  by_cases h1 : cp.balance < amount
  · rw [collectDebtSmart_overpay_run ctx amount toId cpId closeDebt note s cp
      hsel hamt h1 hbal]
    intro a ha hid
    have hmem := mem_selectId ha hid
    rw [selectId_applyDelta_ne cpId toId hcpne,
      selectId_applyDelta_ne cpId toId hcpne,
      selectId_applyDelta_self cpId (-cp.balance) s.accounts cp hsel] at hmem
    rw [List.mem_singleton] at hmem
    rw [hmem]
    simp
  · by_cases h2 : amount < cp.balance ∧ closeDebt = true
    · obtain ⟨h2a, h2b⟩ := h2
      subst h2b
      rw [collectDebtSmart_underpay_run ctx amount toId cpId note s cp hsel
        hamt h2a]
      intro a ha hid
      have hmem := mem_selectId ha hid
      have hsel₁ : selectId cpId
          (applyDelta (applyDelta s.accounts cpId (-amount)) toId amount) =
          [{ cp with balance := cp.balance + -amount }] := by
        rw [selectId_applyDelta_ne cpId toId hcpne,
          selectId_applyDelta_self cpId (-amount) s.accounts cp hsel]
      rw [selectId_applyDelta_self cpId (-(cp.balance - amount)) _ _ hsel₁] at hmem
      rw [List.mem_singleton] at hmem
      rw [hmem]
      simp only
      linarith
    · rw [collectDebtSmart_normal_run ctx amount toId cpId closeDebt note s cp
        hsel hamt (fun h => h1 h.1) h2]
      intro a ha hid
      have hmem := mem_selectId ha hid
      rw [selectId_applyDelta_ne cpId toId hcpne,
        selectId_applyDelta_self cpId (-amount) s.accounts cp hsel] at hmem
      rw [List.mem_singleton] at hmem
      rw [hmem]
      simp only
      linarith [not_lt.mp h1]

/-- C1 amended, witnessed at a concrete input: collecting 100 of the
300 outstanding via `collectDebtSmart` leaves the receivable at 200 ≥ 0. -/
theorem C1_amended_witness :
    0 ≤ (bumpBalance 2 100 (bumpBalance 1 (-100) alexAcc)).balance := by
  refine C1_amended_collectDebtSmart_keeps_counterparty_nonneg demoCtx 100 2 1
    false none demoStore alexAcc ?_ ?_ ?_ ?_
    (bumpBalance 2 100 (bumpBalance 1 (-100) alexAcc)) ?_ ?_
  · simp [selectId, demoStore, alexAcc, cashAcc]
  · norm_num [alexAcc]
  · norm_num
  · norm_num
  · rw [collectDebtSmart_normal_run demoCtx 100 2 1 false none demoStore alexAcc
      (by simp [selectId, demoStore, alexAcc, cashAcc]) (by norm_num)
      (by norm_num [alexAcc]) (by norm_num)]
    simp [applyDelta, demoStore, alexAcc, cashAcc, bumpBalance]
  · simp [bumpBalance, alexAcc]

/-- C2: for every `collectDebtSmart` call with a positive amount and a
resolvable counterparty of outstanding balance `b` (all writes succeeding):
if `amount > b` and `b > 0`, exactly two entries are written — an obligation
entry of exactly `b` (direction returned, the counterparty balance reaches 0)
and an ordinary income entry of `amount − b` against the destination account;
if `amount < b` and `closeDebt`, exactly two entries — an obligation entry of
exactly `amount` and a forgiveness entry of `b − amount` against the
counterparty account; otherwise a single obligation entry of `amount`, and
when `amount < b` the relationship stays open with the smaller balance. -/
theorem C2_collectDebtSmart_cases (ctx : Ctx) (amount : ℚ) (toId cpId : Nat)
    (closeDebt : Bool) (note : Option String) (s : Store) (cp : Account)
    (hsel : selectId cpId s.accounts = [cp]) (hamt : 0 < amount)
    (hne : toId ≠ cpId) :
    (cp.balance < amount ∧ 0 < cp.balance →
      ∃ e1 e2,
        (collectDebtSmart ctx amount toId cpId closeDebt note [] s).2.transactions
          = s.transactions ++ [e1, e2] ∧
        e1.type = .debt_op ∧ e1.is_debt = true ∧ e1.amount = cp.balance ∧
        e1.debt_direction = some .ret ∧ e1.from_account_id = some cpId ∧
        e1.to_account_id = some toId ∧
        e2.type = .income ∧ e2.is_debt = false ∧
        e2.amount = amount - cp.balance ∧ e2.account_id = some toId ∧
        selectId cpId
          (collectDebtSmart ctx amount toId cpId closeDebt note [] s).2.accounts
          = [{ cp with balance := 0 }]) ∧
    (amount < cp.balance ∧ closeDebt = true →
      ∃ e1 e2,
        (collectDebtSmart ctx amount toId cpId closeDebt note [] s).2.transactions
          = s.transactions ++ [e1, e2] ∧
        e1.type = .debt_op ∧ e1.is_debt = true ∧ e1.amount = amount ∧
        e1.debt_direction = some .ret ∧ e1.from_account_id = some cpId ∧
        e1.to_account_id = some toId ∧
        e2.type = .expense ∧ e2.is_debt = true ∧
        e2.amount = cp.balance - amount ∧ e2.account_id = some cpId ∧
        e2.debt_direction = some .forgive ∧
        selectId cpId
          (collectDebtSmart ctx amount toId cpId closeDebt note [] s).2.accounts
          = [{ cp with balance := 0 }]) ∧
    (¬ (cp.balance < amount ∧ 0 < cp.balance) →
      ¬ (amount < cp.balance ∧ closeDebt = true) →
      ∃ e1,
        (collectDebtSmart ctx amount toId cpId closeDebt note [] s).2.transactions
          = s.transactions ++ [e1] ∧
        e1.type = .debt_op ∧ e1.is_debt = true ∧ e1.amount = amount ∧
        e1.debt_direction = some .ret ∧ e1.from_account_id = some cpId ∧
        e1.to_account_id = some toId ∧
        selectId cpId
          (collectDebtSmart ctx amount toId cpId closeDebt note [] s).2.accounts
          = [{ cp with balance := cp.balance - amount }]) := by
  have hcpne : cpId ≠ toId := fun h => hne h.symm
  refine ⟨?_, ?_, ?_⟩
  · rintro ⟨h1, h2⟩
    rw [collectDebtSmart_overpay_run ctx amount toId cpId closeDebt note s cp
      hsel hamt h1 h2]
    refine ⟨_, _, rfl, ?_, ?_, ?_, ?_, ?_, ?_, ?_, ?_, ?_, ?_, ?_⟩ <;>
      first
      | (simp [returnDebtOpTx, overpayIncomeTx]; done)
      | · rw [selectId_applyDelta_ne cpId toId hcpne,
            selectId_applyDelta_ne cpId toId hcpne,
            selectId_applyDelta_self cpId (-cp.balance) s.accounts cp hsel]
          have hz : cp.balance + -cp.balance = 0 := by ring
          rw [hz]
  · rintro ⟨h1, h2⟩
    subst h2
    rw [collectDebtSmart_underpay_run ctx amount toId cpId note s cp hsel
      hamt h1]
    have hsel₁ : selectId cpId
        (applyDelta (applyDelta s.accounts cpId (-amount)) toId amount) =
        [{ cp with balance := cp.balance + -amount }] := by
      rw [selectId_applyDelta_ne cpId toId hcpne,
        selectId_applyDelta_self cpId (-amount) s.accounts cp hsel]
    refine ⟨_, _, rfl, ?_, ?_, ?_, ?_, ?_, ?_, ?_, ?_, ?_, ?_, ?_, ?_⟩ <;>
      first
      | (simp [returnDebtOpTx, forgiveExpenseTx]; done)
      | · rw [selectId_applyDelta_self cpId (-(cp.balance - amount)) _ _ hsel₁]
          have hz : cp.balance + -amount + -(cp.balance - amount) = 0 := by ring
          rw [hz]
  · intro h1 h2
    rw [collectDebtSmart_normal_run ctx amount toId cpId closeDebt note s cp
      hsel hamt h1 h2]
    refine ⟨_, rfl, ?_, ?_, ?_, ?_, ?_, ?_, ?_⟩ <;>
      first
      | (simp [returnDebtOpTx]; done)
      | · rw [selectId_applyDelta_ne cpId toId hcpne,
            selectId_applyDelta_self cpId (-amount) s.accounts cp hsel]
          have hz : cp.balance + -amount = cp.balance - amount := by ring
          rw [hz]

/-- C2 witnessed at a concrete input (Scenario B): collecting 350 on the
300-outstanding receivable writes the settling obligation entry of 300 and an
income entry of 50, and the receivable balance reaches 0. -/
theorem C2_witness :
    ∃ e1 e2,
      (collectDebtSmart demoCtx 350 2 1 false none [] demoStore).2.transactions
        = demoStore.transactions ++ [e1, e2] ∧
      e1.type = .debt_op ∧ e1.is_debt = true ∧ e1.amount = alexAcc.balance ∧
      e1.debt_direction = some .ret ∧ e1.from_account_id = some 1 ∧
      e1.to_account_id = some 2 ∧
      e2.type = .income ∧ e2.is_debt = false ∧
      e2.amount = 350 - alexAcc.balance ∧ e2.account_id = some 2 ∧
      selectId 1
        (collectDebtSmart demoCtx 350 2 1 false none [] demoStore).2.accounts
        = [{ alexAcc with balance := 0 }] :=
  (C2_collectDebtSmart_cases demoCtx 350 2 1 false none demoStore alexAcc
    (by simp [selectId, demoStore, alexAcc, cashAcc]) (by norm_num)
    (by norm_num)).1 ⟨by norm_num [alexAcc], by norm_num [alexAcc]⟩

/-- C6 counterexample: `collectDebtSmart` has no 0.01 tolerance.  Collecting
300.005 on the 300-outstanding receivable differs from the balance by
0.005 ≤ 0.01, yet the call takes the overpayment path and writes two entries
(an obligation entry and an income entry), not the single exact-match
entry the claim requires. -/
theorem C6_counterexample :
    |(300 + 1/200 : ℚ) - alexAcc.balance| ≤ 1/100 ∧
    (300 + 1/200 : ℚ) ≠ alexAcc.balance ∧
    (collectDebtSmart demoCtx (300 + 1/200) 2 1 false none []
        demoStore).2.transactions.length = 2 := by
  refine ⟨?_, ?_, ?_⟩
  · rw [abs_le]
    constructor <;> norm_num [alexAcc]
  · norm_num [alexAcc]
  · rw [collectDebtSmart_overpay_run demoCtx (300 + 1/200) 2 1 false none
      demoStore alexAcc (by simp [selectId, demoStore, alexAcc, cashAcc])
      (by norm_num) (by norm_num [alexAcc]) (by norm_num [alexAcc])]
    simp [demoStore]

/-- C6 (amended): equality between the payment amount and the outstanding
balance is tested exactly in `collectDebtSmart` — there is no tolerance.
With a positive outstanding balance: any amount strictly above the balance
(by however little) takes the overpayment path and writes two entries; only
exact equality behaves as the exact-match case (one entry, closed); any
amount strictly below the balance writes two entries when `closeDebt` and
one entry (relationship open) otherwise. -/
theorem C6_amended_strict_comparison (ctx : Ctx) (amount : ℚ)
    (toId cpId : Nat) (closeDebt : Bool) (note : Option String) (s : Store)
    (cp : Account) (hsel : selectId cpId s.accounts = [cp])
    (hamt : 0 < amount) (hbal : 0 < cp.balance) :
    (cp.balance < amount →
      (collectDebtSmart ctx amount toId cpId closeDebt note []
          s).2.transactions.length = s.transactions.length + 2) ∧
    (amount = cp.balance →
      (collectDebtSmart ctx amount toId cpId closeDebt note []
          s).2.transactions.length = s.transactions.length + 1 ∧
      (collectDebtSmart ctx amount toId cpId closeDebt note [] s).1.closed
        = true) ∧
    (amount < cp.balance → closeDebt = true →
      (collectDebtSmart ctx amount toId cpId closeDebt note []
          s).2.transactions.length = s.transactions.length + 2) ∧
    (amount < cp.balance → closeDebt = false →
      (collectDebtSmart ctx amount toId cpId closeDebt note []
          s).2.transactions.length = s.transactions.length + 1 ∧
      (collectDebtSmart ctx amount toId cpId closeDebt note [] s).1.closed
        = false) := by
  refine ⟨?_, ?_, ?_, ?_⟩
  · intro h1
    rw [collectDebtSmart_overpay_run ctx amount toId cpId closeDebt note s cp
      hsel hamt h1 hbal]
    simp
  · intro heq
    rw [collectDebtSmart_normal_run ctx amount toId cpId closeDebt note s cp
      hsel hamt (fun h => absurd h.1 (by rw [heq]; exact lt_irrefl _))
      (fun h => absurd h.1 (by rw [heq]; exact lt_irrefl _))]
    simp [heq]
  · intro h1 hc
    subst hc
    rw [collectDebtSmart_underpay_run ctx amount toId cpId note s cp hsel
      hamt h1]
    simp
  · intro h1 hc
    subst hc
    rw [collectDebtSmart_normal_run ctx amount toId cpId false note s cp
      hsel hamt (fun h => absurd h.1 (not_lt.mpr h1.le))
      (fun h => absurd h.2 (by norm_num))]
    simp [not_le.mpr h1]

/-- C6 amended, witnessed at a concrete input: on the 300-outstanding
receivable, with payment 300 + 1/200 (within 0.01 of the balance) the strict
comparison still routes to the overpayment path. -/
theorem C6_amended_witness :
    (alexAcc.balance < (300 + 1/200 : ℚ) →
      (collectDebtSmart demoCtx (300 + 1/200) 2 1 false none []
          demoStore).2.transactions.length
        = demoStore.transactions.length + 2) ∧
    ((300 + 1/200 : ℚ) = alexAcc.balance →
      (collectDebtSmart demoCtx (300 + 1/200) 2 1 false none []
          demoStore).2.transactions.length = demoStore.transactions.length + 1 ∧
      (collectDebtSmart demoCtx (300 + 1/200) 2 1 false none []
          demoStore).1.closed = true) ∧
    ((300 + 1/200 : ℚ) < alexAcc.balance → false = true →
      (collectDebtSmart demoCtx (300 + 1/200) 2 1 false none []
          demoStore).2.transactions.length
        = demoStore.transactions.length + 2) ∧
    ((300 + 1/200 : ℚ) < alexAcc.balance → false = false →
      (collectDebtSmart demoCtx (300 + 1/200) 2 1 false none []
          demoStore).2.transactions.length = demoStore.transactions.length + 1 ∧
      (collectDebtSmart demoCtx (300 + 1/200) 2 1 false none []
          demoStore).1.closed = false) :=
  C6_amended_strict_comparison demoCtx (300 + 1/200) 2 1 false none demoStore
    alexAcc (by simp [selectId, demoStore, alexAcc, cashAcc]) (by norm_num)
    (by norm_num [alexAcc])

/-- C3 counterexample: multi-step operations ARE partially applied when the
second write fails.  With the second insert injected to fail:
`createExpenseWithDebt` (100 expense, 40 share) leaves the expense row
persisted and Cash at −100, and `collectDebtSmart` (350 on the
300-outstanding receivable) leaves the settling entry persisted with the
receivable at 0 and Cash at 300 — in both cases the error is merely reported
alongside the partially-applied state, with no rollback. -/
theorem C3_counterexample :
    ((createExpenseWithDebt demoCtx 100 2 none 40 "Alex" none [false, true]
        demoStore).1.error = some .insertFailed ∧
      (createExpenseWithDebt demoCtx 100 2 none 40 "Alex" none [false, true]
        demoStore).2.transactions.length = 1 ∧
      (createExpenseWithDebt demoCtx 100 2 none 40 "Alex" none [false, true]
        demoStore).2.accounts.map Account.balance = [300, -100]) ∧
    ((collectDebtSmart demoCtx 350 2 1 false none [false, true]
        demoStore).1.error = some .insertFailed ∧
      (collectDebtSmart demoCtx 350 2 1 false none [false, true]
        demoStore).2.transactions.length = 1 ∧
      (collectDebtSmart demoCtx 350 2 1 false none [false, true]
        demoStore).2.accounts.map Account.balance = [0, 300]) ∧
    demoStore.transactions.length = 0 ∧
    demoStore.accounts.map Account.balance = [300, 0] := by
  have ht : strTrim "Alex" = "Alex" := by decide
  refine ⟨⟨?_, ?_, ?_⟩, ⟨?_, ?_, ?_⟩, ?_, ?_⟩ <;>
    simp [createExpenseWithDebt, collectDebtSmart, plainExpenseTx, lentDebtOpTx,
      returnDebtOpTx, overpayIncomeTx, findOrCreateCounterparty, cpMatches,
      maybeSingle, single, selectId, attemptInsert, insertTx,
      update_account_balance, applyInsertEffect, applyDelta, bumpBalance,
      demoStore, alexAcc, cashAcc, demoCtx, nextTxId, nextAccountId, ht] <;>
    norm_num

/-- C3 (amended): when the second write of `createExpenseWithDebt` fails, the
operation is NOT rolled back: the expense entry stays persisted, the paying
account keeps the −E balance effect, and the failure is only reported in the
result's `error` field. -/
theorem C3_amended_first_write_persists (ctx : Ctx) (E D : ℚ)
    (accountId : Nat) (categoryId : Option Nat) (name : String)
    (note : Option String) (s : Store) (cpAcc : Account)
    (hE : 0 < E) (hD : 0 < D) (hDE : D < E) (hname : ¬ strTrim name = "")
    (hcp : cpMatches ctx.uid (strTrim name) .receivable s.accounts = [cpAcc]) :
    (createExpenseWithDebt ctx E accountId categoryId D name note
        [false, true] s).1.error = some .insertFailed ∧
    (createExpenseWithDebt ctx E accountId categoryId D name note
        [false, true] s).2.transactions =
      s.transactions ++
        [plainExpenseTx ctx (nextTxId s) E accountId categoryId note] ∧
    (createExpenseWithDebt ctx E accountId categoryId D name note
        [false, true] s).2.accounts = applyDelta s.accounts accountId (-E) := by
  have h1 : ¬ E ≤ 0 := not_le.mpr hE
  have h2 : ¬ D ≤ 0 := not_le.mpr hD
  have h3 : ¬ E ≤ D := not_le.mpr hDE
  refine ⟨?_, ?_, ?_⟩ <;>
    simp [createExpenseWithDebt, h1, h2, h3, hname, attemptInsert,
      findOrCreateCounterparty, cpMatches_applyDelta, hcp, maybeSingle,
      insertTx, update_account_balance, applyInsertEffect, plainExpenseTx]

/-- C3 amended, witnessed at a concrete input: the failing split expense on
the demo store persists the expense row and the −100 on Cash. -/
theorem C3_amended_witness :
    (createExpenseWithDebt demoCtx 100 2 none 40 "Alex" none [false, true]
        demoStore).1.error = some .insertFailed ∧
    (createExpenseWithDebt demoCtx 100 2 none 40 "Alex" none [false, true]
        demoStore).2.transactions =
      demoStore.transactions ++
        [plainExpenseTx demoCtx (nextTxId demoStore) 100 2 none none] ∧
    (createExpenseWithDebt demoCtx 100 2 none 40 "Alex" none [false, true]
        demoStore).2.accounts = applyDelta demoStore.accounts 2 (-100) :=
  C3_amended_first_write_persists demoCtx 100 40 2 none "Alex" none demoStore
    alexAcc (by norm_num) (by norm_num) (by norm_num) (by decide)
    (by simp [cpMatches, demoStore, demoCtx, alexAcc, cashAcc,
      show strTrim "Alex" = "Alex" from by decide])

/-- C5 counterexample: `createExpenseWithDebt` with expense 10000 against
"Cash" (balance 0) and share 4000 for the fresh counterparty "Sam" succeeds,
but Cash ends at −14000: the paying account decreases by E + D = 14000 (the
full expense plus the lend of the share), not by E = 10000 as the claim
states.  The receivable "Sam" does end at 4000. -/
theorem C5_counterexample :
    (createExpenseWithDebt demoCtx 10000 2 none 4000 "Sam" none []
        demoStore).1.error = none ∧
    (createExpenseWithDebt demoCtx 10000 2 none 4000 "Sam" none []
        demoStore).2.accounts.map Account.balance = [300, -14000, 4000] ∧
    (createExpenseWithDebt demoCtx 10000 2 none 4000 "Sam" none []
        demoStore).2.accounts.map Account.type
      = [.receivable, .asset, .receivable] ∧
    demoStore.accounts.map Account.balance = [300, 0] ∧
    ((0 : ℚ) - -14000 ≠ 10000) := by
  have ht : strTrim "Sam" = "Sam" := by decide
  refine ⟨?_, ?_, ?_, ?_, by norm_num⟩ <;>
    simp [createExpenseWithDebt, plainExpenseTx, lentDebtOpTx,
      findOrCreateCounterparty, cpMatches, maybeSingle, attemptInsert,
      insertTx, update_account_balance, applyInsertEffect, applyDelta,
      bumpBalance, demoStore, alexAcc, cashAcc, demoCtx, nextTxId,
      nextAccountId, ht] <;>
    norm_num

/-- C5 (amended): for `createExpenseWithDebt` with 0 < D < E and a fresh
counterparty, the operation succeeds, the newly created receivable ends with
balance D, and the paying account decreases by E + D in total (the full
expense plus the lend of the share) — not by E.  When D ≥ E the operation is
rejected as invalid input before any write. -/
theorem C5_amended_payer_decreases_by_sum (ctx : Ctx) (E D : ℚ)
    (accountId : Nat) (categoryId : Option Nat) (name : String)
    (note : Option String) (s : Store) (payer : Account)
    (hE : 0 < E) (hD : 0 < D) (hDE : D < E) (hname : ¬ strTrim name = "")
    (hsel : selectId accountId s.accounts = [payer])
    (hfresh : cpMatches ctx.uid (strTrim name) .receivable s.accounts = []) :
    (createExpenseWithDebt ctx E accountId categoryId D name note []
        s).1.error = none ∧
    selectId accountId
        (createExpenseWithDebt ctx E accountId categoryId D name note []
          s).2.accounts
      = [{ payer with balance := payer.balance - (E + D) }] ∧
    selectId (nextAccountId s)
        (createExpenseWithDebt ctx E accountId categoryId D name note []
          s).2.accounts
      = [{ id := nextAccountId s, user_id := ctx.uid, name := strTrim name,
           type := .receivable, balance := D,
           counterparty := some (strTrim name), status := .active }] ∧
    (∀ D' : ℚ, E ≤ D' →
      createExpenseWithDebt ctx E accountId categoryId D' name note [] s
        = (⟨none, none, some .invalidInput⟩, s)) := by
  have hpm : payer ∈ selectId accountId s.accounts := by
    rw [hsel]; exact List.mem_singleton_self payer
  have hpayermem : payer ∈ s.accounts := (List.mem_filter.mp hpm).1
  have hpid : payer.id = accountId := selectId_mem_id hpm
  have hATlt : accountId < nextAccountId s := by
    rw [← hpid]; exact mem_id_lt_nextAccountId hpayermem
  have hATne : accountId ≠ nextAccountId s := Nat.ne_of_lt hATlt
  have hacc : (createExpenseWithDebt ctx E accountId categoryId D name note []
      s).2.accounts =
      applyDelta (applyDelta (applyDelta s.accounts accountId (-E) ++
        [{ id := nextAccountId s, user_id := ctx.uid, name := strTrim name,
           type := .receivable, balance := 0,
           counterparty := some (strTrim name), status := .active }])
        accountId (-D)) (nextAccountId s) D := by
    simp [createExpenseWithDebt, not_le.mpr hE, not_le.mpr hD, not_le.mpr hDE,
      hname, attemptInsert, insertTx, update_account_balance,
      applyInsertEffect, plainExpenseTx, lentDebtOpTx,
      findOrCreateCounterparty, cpMatches_applyDelta, hfresh, maybeSingle,
      nextAccountId, applyDelta_map_id]
  have herr : (createExpenseWithDebt ctx E accountId categoryId D name note []
      s).1.error = none := by
    simp [createExpenseWithDebt, not_le.mpr hE, not_le.mpr hD, not_le.mpr hDE,
      hname, attemptInsert, insertTx, update_account_balance,
      applyInsertEffect, plainExpenseTx, lentDebtOpTx,
      findOrCreateCounterparty, cpMatches_applyDelta, hfresh, maybeSingle]
  have hselmid : selectId accountId
      (applyDelta s.accounts accountId (-E) ++
        [{ id := nextAccountId s, user_id := ctx.uid, name := strTrim name,
           type := .receivable, balance := 0,
           counterparty := some (strTrim name), status := .active }])
      = [{ payer with balance := payer.balance + -E }] := by
    rw [selectId_append,
      selectId_applyDelta_self accountId (-E) s.accounts payer hsel]
    simp [selectId, hATne.symm]
  have hselcp : selectId (nextAccountId s)
      (applyDelta s.accounts accountId (-E) ++
        [{ id := nextAccountId s, user_id := ctx.uid, name := strTrim name,
           type := .receivable, balance := 0,
           counterparty := some (strTrim name), status := .active }])
      = [{ id := nextAccountId s, user_id := ctx.uid, name := strTrim name,
           type := .receivable, balance := 0,
           counterparty := some (strTrim name), status := .active }] := by
    rw [selectId_append,
      selectId_applyDelta_ne (nextAccountId s) accountId hATne.symm,
      selectId_nextAccountId s]
    simp [selectId]
  refine ⟨herr, ?_, ?_, ?_⟩
  · rw [hacc, selectId_applyDelta_ne accountId (nextAccountId s) hATne,
      selectId_applyDelta_self accountId (-D) _ _ hselmid]
    have hz : payer.balance + -E + -D = payer.balance - (E + D) := by ring
    rw [hz]
  · have hsel₂ : selectId (nextAccountId s)
        (applyDelta (applyDelta s.accounts accountId (-E) ++
          [{ id := nextAccountId s, user_id := ctx.uid, name := strTrim name,
             type := .receivable, balance := 0,
             counterparty := some (strTrim name), status := .active }])
          accountId (-D))
        = [{ id := nextAccountId s, user_id := ctx.uid, name := strTrim name,
             type := .receivable, balance := 0,
             counterparty := some (strTrim name), status := .active }] := by
      rw [selectId_applyDelta_ne (nextAccountId s) accountId hATne.symm, hselcp]
    rw [hacc, selectId_applyDelta_self (nextAccountId s) D _ _ hsel₂]
    norm_num
  · intro D' hD'
    have hD'pos : ¬ D' ≤ 0 := not_le.mpr (lt_of_lt_of_le hE hD')
    simp [createExpenseWithDebt, not_le.mpr hE, hD'pos, hD']

/-- C5 amended, witnessed at Scenario D's numbers: expense 10000 from Cash
with share 4000 for fresh "Sam" leaves Cash down by 14000 and the new
receivable at 4000; a share of at least 10000 is rejected with no write. -/
theorem C5_amended_witness :
    (createExpenseWithDebt demoCtx 10000 2 none 4000 "Sam" none []
        demoStore).1.error = none ∧
    selectId 2
        (createExpenseWithDebt demoCtx 10000 2 none 4000 "Sam" none []
          demoStore).2.accounts
      = [{ cashAcc with balance := cashAcc.balance - (10000 + 4000) }] ∧
    selectId (nextAccountId demoStore)
        (createExpenseWithDebt demoCtx 10000 2 none 4000 "Sam" none []
          demoStore).2.accounts
      = [{ id := nextAccountId demoStore, user_id := demoCtx.uid,
           name := strTrim "Sam", type := .receivable, balance := 4000,
           counterparty := some (strTrim "Sam"), status := .active }] ∧
    (∀ D' : ℚ, 10000 ≤ D' →
      createExpenseWithDebt demoCtx 10000 2 none D' "Sam" none [] demoStore
        = (⟨none, none, some .invalidInput⟩, demoStore)) :=
  C5_amended_payer_decreases_by_sum demoCtx 10000 4000 2 none "Sam" none
    demoStore cashAcc (by norm_num) (by norm_num) (by norm_num) (by decide)
    (by simp [selectId, demoStore, alexAcc, cashAcc])
    (by simp [cpMatches, demoStore, demoCtx, alexAcc, cashAcc,
      show strTrim "Sam" = "Sam" from by decide])

/-- C10: `forgiveDebt`'s already-settled guard.  With a resolvable
counterparty account: when the absolute balance is below 0.01 the call
returns the `'Долг уже погашен'` error and the store is completely unchanged
(no entry, no status or balance change); when the absolute balance is at
least 0.01 it writes one forgiveness expense entry of exactly that absolute
amount against the counterparty account and then sets the account to
status `closed` and balance 0. -/
theorem C10_forgiveDebt_guard (ctx : Ctx) (cpId : Nat)
    (categoryId : Option Nat) (note : Option String) (s : Store)
    (cp : Account) (hsel : selectId cpId s.accounts = [cp]) :
    (|cp.balance| < 1/100 →
      forgiveDebt ctx cpId categoryId note [] s
        = (⟨none, some .alreadySettled⟩, s)) ∧
    (1/100 ≤ |cp.balance| →
      (forgiveDebt ctx cpId categoryId note [] s).1.error = none ∧
      (forgiveDebt ctx cpId categoryId note [] s).2.transactions =
        s.transactions ++
          [forgiveExpenseTx ctx (nextTxId s) |cp.balance| cpId
            (cp.counterparty.getD cp.name) categoryId
            (note.getD ("Списал долг: " ++ cp.counterparty.getD cp.name))] ∧
      selectId cpId (forgiveDebt ctx cpId categoryId note [] s).2.accounts
        = [{ cp with balance := 0, status := .closed }]) := by
  constructor
  · intro h
    have h' : |cp.balance| < (100:ℚ)⁻¹ := by rwa [one_div] at h
    simp [forgiveDebt, hsel, single, h']
  · intro h
    have hlt : ¬ |cp.balance| < (100:ℚ)⁻¹ := by
      rw [← one_div]; exact not_lt.mpr h
    refine ⟨?_, ?_, ?_⟩
    · simp [forgiveDebt, hsel, single, hlt, attemptInsert, insertTx]
    · simp [forgiveDebt, hsel, single, hlt, attemptInsert, insertTx]
    · have hrun : (forgiveDebt ctx cpId categoryId note [] s).2.accounts =
          (applyDelta s.accounts cpId (-|cp.balance|)).map (fun a =>
            if a.id = cpId then { a with status := .closed, balance := 0 }
            else a) := by
        simp [forgiveDebt, hsel, single, hlt, attemptInsert, insertTx,
          update_account_balance, applyInsertEffect, forgiveExpenseTx]
      rw [hrun, selectId_map_of_id _
          (fun a => by by_cases hh : a.id = cpId <;> simp [hh]),
        selectId_applyDelta_self cpId (-|cp.balance|) s.accounts cp hsel]
      have hid : cp.id = cpId :=
        selectId_mem_id (by rw [hsel]; exact List.mem_singleton_self cp)
      simp [hid]

/-- C10 witnessed at a concrete input: forgiving the 300-outstanding
receivable writes the 300 forgiveness entry and closes the account; the
below-0.01 guard clause is instantiated vacuously (|300| ≥ 0.01). -/
theorem C10_witness :
    (|alexAcc.balance| < 1/100 →
      forgiveDebt demoCtx 1 none none [] demoStore
        = (⟨none, some .alreadySettled⟩, demoStore)) ∧
    (1/100 ≤ |alexAcc.balance| →
      (forgiveDebt demoCtx 1 none none [] demoStore).1.error = none ∧
      (forgiveDebt demoCtx 1 none none [] demoStore).2.transactions =
        demoStore.transactions ++
          [forgiveExpenseTx demoCtx (nextTxId demoStore) |alexAcc.balance| 1
            (alexAcc.counterparty.getD alexAcc.name) none
            ("Списал долг: " ++ alexAcc.counterparty.getD alexAcc.name)] ∧
      selectId 1 (forgiveDebt demoCtx 1 none none [] demoStore).2.accounts
        = [{ alexAcc with balance := 0, status := .closed }]) :=
  C10_forgiveDebt_guard demoCtx 1 none none demoStore alexAcc
    (by simp [selectId, demoStore, alexAcc, cashAcc])

/-- C9: `findOrCreateCounterparty` is idempotent.  Provided the store holds
at most one account matching `(user, kind, counterparty)` (which the unique
relationship tuple guarantees and `maybeSingle()` requires), the first call
returns an account (found or created) and a second identical call finds that
same account and leaves the store unchanged — no duplicate account is ever
created. -/
theorem C9_findOrCreateCounterparty_idempotent (ctx : Ctx) (name : String)
    (t : AccountType) (s : Store)
    (huniq : (cpMatches ctx.uid name t s.accounts).length ≤ 1) :
    ∃ acc, (findOrCreateCounterparty ctx name t s).1 = .ok acc ∧
      findOrCreateCounterparty ctx name t
          (findOrCreateCounterparty ctx name t s).2
        = (.ok acc, (findOrCreateCounterparty ctx name t s).2) ∧
      acc.user_id = ctx.uid ∧ acc.type = t ∧ acc.counterparty = some name := by
  cases hm : cpMatches ctx.uid name t s.accounts with
  | nil =>
    simp only [cpMatches] at hm
    refine ⟨⟨nextAccountId s, ctx.uid, name, t, 0, some name, .active⟩,
      ?_, ?_, rfl, rfl, rfl⟩
    · simp [findOrCreateCounterparty, cpMatches, hm, maybeSingle]
    · simp [findOrCreateCounterparty, cpMatches, hm, maybeSingle,
        List.filter_append]
  | cons a tail =>
    cases tail with
    | nil =>
      have hmem : a ∈ cpMatches ctx.uid name t s.accounts := by
        rw [hm]; exact List.mem_singleton_self a
      have hprops := List.mem_filter.mp hmem
      simp only [cpMatches] at hm
      refine ⟨a, ?_, ?_, ?_, ?_, ?_⟩
      · simp [findOrCreateCounterparty, cpMatches, hm, maybeSingle]
      · simp [findOrCreateCounterparty, cpMatches, hm, maybeSingle]
      · have := hprops.2
        simp only [Bool.and_eq_true, beq_iff_eq] at this
        exact this.1.1
      · have := hprops.2
        simp only [Bool.and_eq_true, beq_iff_eq] at this
        exact this.1.2
      · have := hprops.2
        simp only [Bool.and_eq_true, beq_iff_eq] at this
        exact this.2
    | cons b tail₂ =>
      exfalso
      rw [hm] at huniq
      simp at huniq

/-- C9 witnessed at a concrete input: resolving "Alex" as a receivable on the
demo store finds the existing account both times and creates nothing. -/
theorem C9_witness :
    ∃ acc, (findOrCreateCounterparty demoCtx "Alex" .receivable demoStore).1
        = .ok acc ∧
      findOrCreateCounterparty demoCtx "Alex" .receivable
          (findOrCreateCounterparty demoCtx "Alex" .receivable demoStore).2
        = (.ok acc,
           (findOrCreateCounterparty demoCtx "Alex" .receivable demoStore).2) ∧
      acc.user_id = demoCtx.uid ∧ acc.type = .receivable ∧
      acc.counterparty = some "Alex" :=
  C9_findOrCreateCounterparty_idempotent demoCtx "Alex" .receivable demoStore
    (by simp [cpMatches, demoStore, demoCtx, alexAcc, cashAcc])

/-- C7: optimistic locking on entry edits.  When every stored row with the
edited id has a creation timestamp different from the supplied version token
(a concurrent edit moved it), the filtered UPDATE matches zero rows: the
caller receives the concurrent-modification error and the store — every
entry field and every account balance — is completely unchanged. -/
theorem C7_stale_token_rejected (txId : Nat) (u : TxUpdates) (token : Nat)
    (s : Store)
    (hstale : ∀ t ∈ s.transactions, t.id = txId → t.created_at ≠ token) :
    (updateTransaction txId u (some token) s).1
      = .error .concurrentModification ∧
    (updateTransaction txId u (some token) s).2 = s := by
  have hpred : ∀ t ∈ s.transactions,
      (t.id == txId && (t.created_at == token)) = false := by
    intro t ht
    by_cases hid : t.id = txId
    · simp [hid, hstale t ht hid]
    · simp [hid]
  have hfil : s.transactions.filter
      (fun t => t.id == txId && (t.created_at == token)) = [] :=
    List.filter_eq_nil_iff.mpr (fun t ht => by simp [hpred t ht])
  have hmap : s.transactions.map
      (fun t => if t.id = txId ∧ t.created_at = token
        then applyUpdates u t else t) = s.transactions := by
    have h1 : s.transactions.map
        (fun t => if t.id = txId ∧ t.created_at = token
          then applyUpdates u t else t) = s.transactions.map id :=
      List.map_congr_left (fun t ht =>
        if_neg (fun hc => hstale t ht hc.1 hc.2))
    rw [h1, List.map_id]
  constructor <;> simp [updateTransaction, hfil, hmap]

/-- C7 witnessed at a concrete input: editing entry 1 (stored `created_at`
100) with the stale token 99 is rejected with no change to the store. -/
theorem C7_witness :
    (updateTransaction 1
        ⟨some 999, none, none, none⟩ (some 99)
        (insertTx demoStore (plainExpenseTx demoCtx 1 50 2 none none))).1
      = .error .concurrentModification ∧
    (updateTransaction 1
        ⟨some 999, none, none, none⟩ (some 99)
        (insertTx demoStore (plainExpenseTx demoCtx 1 50 2 none none))).2
      = insertTx demoStore (plainExpenseTx demoCtx 1 50 2 none none) :=
  C7_stale_token_rejected 1 ⟨some 999, none, none, none⟩ 99
    (insertTx demoStore (plainExpenseTx demoCtx 1 50 2 none none))
    (by simp [insertTx, demoStore, plainExpenseTx, demoCtx])

/-- C8 (amended): the cascade only considers the user's 1000 most recent
entries.  When the store holds at most 1000 transactions (all the user's,
with distinct ids, and every entry referencing the counterparty by
`account_id` also carrying the relationship marker), `handleCascadeDelete`
deletes, one at a time and in descending date order, exactly the entries
whose `related_account_id`, `from_account_id` or `to_account_id` equals the
counterparty account, and afterwards deletes the counterparty account
itself.  (Beyond 1000 transactions the cascade misses entries — see the
counterexample.) -/
theorem C8_amended_cascade_bounded (ctx : Ctx) (cpId : Nat) (s : Store)
    (hlen : s.transactions.length ≤ 1000)
    (huid : ∀ t ∈ s.transactions, t.user_id = ctx.uid)
    (hinj : ∀ t₁ ∈ s.transactions, ∀ t₂ ∈ s.transactions,
      t₁.id = t₂.id → t₁ = t₂)
    (haccid : ∀ t ∈ s.transactions, t.account_id = some cpId →
      isRelatedTo cpId t = true) :
    (handleCascadeDelete ctx cpId s).1.1.Perm
        (s.transactions.filter (isRelatedTo cpId)) ∧
    (handleCascadeDelete ctx cpId s).1.1.Pairwise
      (fun a b => b.date ≤ a.date) ∧
    (handleCascadeDelete ctx cpId s).1.2 = none ∧
    (handleCascadeDelete ctx cpId s).2.transactions
      = s.transactions.filter (fun t => !(isRelatedTo cpId t)) ∧
    (handleCascadeDelete ctx cpId s).2.accounts.map Account.id
      = (s.accounts.map Account.id).filter (fun i => i != cpId) := by
  have hfull : s.transactions.filter (fun t => t.user_id == ctx.uid)
      = s.transactions :=
    List.filter_eq_self.mpr (fun t ht => by simp [huid t ht])
  have hfetch : getTransactionsLimited ctx.uid 1000 s
      = sortKeyDesc s.transactions := by
    unfold getTransactionsLimited
    rw [hfull]
    exact List.take_of_length_le
      (by rw [(sortKeyDesc_perm s.transactions).length_eq]; exact hlen)
  have hpermSorted : (sortDateDesc
      ((getTransactionsLimited ctx.uid 1000 s).filter (isRelatedTo cpId))).Perm
      (s.transactions.filter (isRelatedTo cpId)) := by
    rw [hfetch]
    exact (sortDateDesc_perm _).trans
      ((sortKeyDesc_perm s.transactions).filter _)
  have hrun : handleCascadeDelete ctx cpId s =
      ((sortDateDesc ((getTransactionsLimited ctx.uid 1000 s).filter
          (isRelatedTo cpId)),
        (deleteAccount cpId ((sortDateDesc ((getTransactionsLimited ctx.uid
          1000 s).filter (isRelatedTo cpId))).foldl
          (fun st t => deleteTransaction t.id st) s)).1),
       (deleteAccount cpId ((sortDateDesc ((getTransactionsLimited ctx.uid
          1000 s).filter (isRelatedTo cpId))).foldl
          (fun st t => deleteTransaction t.id st) s)).2) := rfl
  have htx₁ : ((sortDateDesc ((getTransactionsLimited ctx.uid 1000 s).filter
      (isRelatedTo cpId))).foldl
      (fun st t => deleteTransaction t.id st) s).transactions
      = s.transactions.filter (fun t =>
          (sortDateDesc ((getTransactionsLimited ctx.uid 1000 s).filter
            (isRelatedTo cpId))).all (fun r => t.id != r.id)) :=
    foldl_delete_transactions _ s
  have hkey : ∀ t ∈ s.transactions,
      ((sortDateDesc ((getTransactionsLimited ctx.uid 1000 s).filter
        (isRelatedTo cpId))).all (fun r => t.id != r.id))
      = !(isRelatedTo cpId t) := by
    intro t ht
    by_cases hrel : isRelatedTo cpId t = true
    · rw [hrel]
      have : (sortDateDesc ((getTransactionsLimited ctx.uid 1000 s).filter
          (isRelatedTo cpId))).all (fun r => t.id != r.id) = false :=
        List.all_eq_false.mpr
          ⟨t, hpermSorted.mem_iff.mpr (List.mem_filter.mpr ⟨ht, hrel⟩),
            by simp⟩
      rw [this]
      rfl
    · have hrel' : isRelatedTo cpId t = false := by
        cases hb : isRelatedTo cpId t
        · rfl
        · exact absurd hb hrel
      rw [hrel']
      refine List.all_eq_true.mpr (fun r hr => ?_)
      have hrmem := List.mem_filter.mp (hpermSorted.mem_iff.mp hr)
      simp only [bne_iff_ne, ne_eq]
      intro heq
      rw [hinj t ht r hrmem.1 heq] at hrel'
      rw [hrmem.2] at hrel'
      simp at hrel'
  have htx : ((sortDateDesc ((getTransactionsLimited ctx.uid 1000 s).filter
      (isRelatedTo cpId))).foldl
      (fun st t => deleteTransaction t.id st) s).transactions
      = s.transactions.filter (fun t => !(isRelatedTo cpId t)) := by
    rw [htx₁]
    exact List.filter_congr hkey
  have href : (((sortDateDesc ((getTransactionsLimited ctx.uid 1000 s).filter
      (isRelatedTo cpId))).foldl
      (fun st t => deleteTransaction t.id st) s).transactions).filter
      (fun t => t.account_id == some cpId ||
        t.from_account_id == some cpId ||
        t.to_account_id == some cpId) = [] := by
    rw [htx]
    refine List.filter_eq_nil_iff.mpr (fun t ht => ?_)
    obtain ⟨htS, hnotrel⟩ := List.mem_filter.mp ht
    have hrelf : isRelatedTo cpId t = false := by
      cases hb : isRelatedTo cpId t
      · rfl
      · rw [hb] at hnotrel
        exact absurd hnotrel (by simp)
    have hcomp := hrelf
    simp only [isRelatedTo, Bool.or_eq_false_iff] at hcomp
    intro hcontra
    simp only [Bool.or_eq_true] at hcontra
    rcases hcontra with (haccT | hfromT) | htoT
    · have haeq : t.account_id = some cpId := by simpa using haccT
      rw [haccid t htS haeq] at hrelf
      simp at hrelf
    · rw [hcomp.1.2] at hfromT
      simp at hfromT
    · rw [hcomp.2] at htoT
      simp at htoT
  have hdel1 : (deleteAccount cpId ((sortDateDesc
      ((getTransactionsLimited ctx.uid 1000 s).filter
        (isRelatedTo cpId))).foldl
      (fun st t => deleteTransaction t.id st) s)).1 = none := by
    simp [deleteAccount, href]
  have hdel2 : (deleteAccount cpId ((sortDateDesc
      ((getTransactionsLimited ctx.uid 1000 s).filter
        (isRelatedTo cpId))).foldl
      (fun st t => deleteTransaction t.id st) s)).2.transactions =
      ((sortDateDesc ((getTransactionsLimited ctx.uid 1000 s).filter
        (isRelatedTo cpId))).foldl
      (fun st t => deleteTransaction t.id st) s).transactions := by
    simp [deleteAccount, href]
  have hdel3 : (deleteAccount cpId ((sortDateDesc
      ((getTransactionsLimited ctx.uid 1000 s).filter
        (isRelatedTo cpId))).foldl
      (fun st t => deleteTransaction t.id st) s)).2.accounts =
      (((sortDateDesc ((getTransactionsLimited ctx.uid 1000 s).filter
        (isRelatedTo cpId))).foldl
      (fun st t => deleteTransaction t.id st) s).accounts).filter
        (fun a => a.id != cpId) := by
    simp [deleteAccount, href]
  refine ⟨?_, ?_, ?_, ?_, ?_⟩
  · rw [hrun]
    exact hpermSorted
  · rw [hrun]
    exact pairwise_sortDateDesc _
  · rw [hrun]
    exact hdel1
  · rw [hrun]
    dsimp only
    rw [hdel2]
    exact htx
  · rw [hrun]
    dsimp only
    rw [hdel3, map_id_filter_ne, foldl_delete_accounts_map_id]

/-- The counterparty account of the cascade counterexample (id 7). -/
def oldCpAcc : Account :=
  { id := 7, user_id := 0, name := "Old", type := .receivable, balance := 100,
    counterparty := some "Old", status := .active }

/-- An unrelated recent expense (date 5), repeated 1000 times in the
cascade counterexample store. -/
def unrelTx : Tx :=
  { id := 0, user_id := 0, date := 5, type := .expense, amount := 1,
    account_id := some 2, category_id := none, from_account_id := none,
    to_account_id := none, is_debt := false, debt_direction := none,
    debt_counterparty := none, related_account_id := none, note := none,
    created_at := 50 }

/-- The older obligation entry (date 3) tied to counterparty account 7. -/
def oldRelTx : Tx :=
  { id := 1, user_id := 0, date := 3, type := .debt_op, amount := 100,
    account_id := none, category_id := none, from_account_id := some 2,
    to_account_id := some 7, is_debt := true, debt_direction := some .lent,
    debt_counterparty := some "Old", related_account_id := some 7,
    note := none, created_at := 10 }

/-- Cascade counterexample store: 1000 recent unrelated entries dated after
the single obligation entry of the relationship. -/
def bigStore : Store :=
  { accounts := [oldCpAcc],
    transactions := List.replicate 1000 unrelTx ++ [oldRelTx] }

/-- Small witness store for the bounded-cascade theorem: one unrelated entry
and one obligation entry of relationship 7. -/
def wStore : Store :=
  { accounts := [oldCpAcc, cashAcc],
    transactions := [unrelTx, oldRelTx] }

theorem insertKeyDesc_unrel (n : Nat) :
    insertKeyDesc unrelTx (List.replicate n unrelTx ++ [oldRelTx])
      = List.replicate (n + 1) unrelTx ++ [oldRelTx] := by
  cases n with
  | zero =>
    simp only [List.replicate, List.nil_append, insertKeyDesc]
    rw [if_pos (by decide : txKeyGe unrelTx oldRelTx = true)]
    rfl
  | succ m =>
    simp only [List.replicate_succ, List.cons_append, insertKeyDesc]
    rw [if_pos (by decide : txKeyGe unrelTx unrelTx = true)]
    rfl

theorem sortKeyDesc_bigList (n : Nat) :
    sortKeyDesc (List.replicate n unrelTx ++ [oldRelTx])
      = List.replicate n unrelTx ++ [oldRelTx] := by
  induction n with
  | zero => rfl
  | succ m ih =>
    simp only [List.replicate_succ, List.cons_append, sortKeyDesc,
      List.append_eq]
    rw [ih, insertKeyDesc_unrel m, List.replicate_succ, List.cons_append]

theorem filter_replicate_neg {p : Tx → Bool} {t : Tx} (h : p t = false)
    (n : Nat) : (List.replicate n t).filter p = [] := by
  induction n with
  | zero => rfl
  | succ m ih => simp [List.replicate_succ, h, ih]

/-- C8 counterexample: the cascade fetches only the user's 1000 most recent
transactions.  On a store with 1000 unrelated newer entries ahead of the
relationship's one obligation entry, `handleCascadeDelete` deletes no entry
at all, the account delete is refused (`hasTransactions`), and the store is
returned unchanged — even though exactly one entry matches the relatedness
criterion and the claim requires it (and then the account) to be deleted. -/
theorem C8_counterexample :
    handleCascadeDelete demoCtx 7 bigStore
      = (([], some .hasTransactions), bigStore) ∧
    bigStore.transactions.filter (isRelatedTo 7) = [oldRelTx] ∧
    bigStore.accounts = [oldCpAcc] ∧
    bigStore.transactions.length = 1001 := by
  have hu : isRelatedTo 7 unrelTx = false := by decide
  have huser : bigStore.transactions.filter
      (fun t => t.user_id == demoCtx.uid) = bigStore.transactions := by
    refine List.filter_eq_self.mpr (fun t ht => ?_)
    rcases List.mem_append.mp ht with h | h
    · rw [List.eq_of_mem_replicate h]; decide
    · rw [List.mem_singleton.mp h]; decide
  have hfetch : getTransactionsLimited demoCtx.uid 1000 bigStore
      = List.replicate 1000 unrelTx := by
    unfold getTransactionsLimited
    rw [huser,
      show bigStore.transactions
        = List.replicate 1000 unrelTx ++ [oldRelTx] from rfl,
      sortKeyDesc_bigList]
    have h := List.take_left (List.replicate 1000 unrelTx) [oldRelTx]
    rw [List.length_replicate] at h
    exact h
  have hrel : (List.replicate 1000 unrelTx).filter (isRelatedTo 7) = [] :=
    filter_replicate_neg hu 1000
  have hdelacc : deleteAccount 7 bigStore
      = (some .hasTransactions, bigStore) := by
    have hne : bigStore.transactions.filter (fun t =>
        t.account_id == some 7 || t.from_account_id == some 7 ||
          t.to_account_id == some 7) = [oldRelTx] := by
      rw [show bigStore.transactions
          = List.replicate 1000 unrelTx ++ [oldRelTx] from rfl,
        List.filter_append, filter_replicate_neg (by decide) 1000]
      rfl
    simp [deleteAccount, hne]
  refine ⟨?_, ?_, rfl, ?_⟩
  · simp only [handleCascadeDelete]
    rw [hfetch, hrel]
    simp only [List.foldl_nil, sortDateDesc]
    rw [hdelacc]
  · rw [show bigStore.transactions
        = List.replicate 1000 unrelTx ++ [oldRelTx] from rfl,
      List.filter_append, hrel]
    rfl
  · rw [show bigStore.transactions
        = List.replicate 1000 unrelTx ++ [oldRelTx] from rfl,
      List.length_append, List.length_replicate]
    rfl

/-- C8 amended, witnessed at a concrete input: on a two-entry store owned by
the user (distinct ids, one entry related to account 7), the cascade deletes
exactly the related entry and then the account. -/
theorem C8_amended_witness :
    (handleCascadeDelete demoCtx 7 wStore).1.1.Perm
        (wStore.transactions.filter (isRelatedTo 7)) ∧
    (handleCascadeDelete demoCtx 7 wStore).1.1.Pairwise
      (fun a b => b.date ≤ a.date) ∧
    (handleCascadeDelete demoCtx 7 wStore).1.2 = none ∧
    (handleCascadeDelete demoCtx 7 wStore).2.transactions
      = wStore.transactions.filter (fun t => !(isRelatedTo 7 t)) ∧
    (handleCascadeDelete demoCtx 7 wStore).2.accounts.map Account.id
      = (wStore.accounts.map Account.id).filter (fun i => i != 7) :=
  C8_amended_cascade_bounded demoCtx 7 wStore
    (by norm_num [wStore])
    (by intro t ht
        simp only [wStore, List.mem_cons, List.not_mem_nil, or_false] at ht
        rcases ht with rfl | rfl <;> rfl)
    (by intro t₁ h₁ t₂ h₂ heq
        simp only [wStore, List.mem_cons, List.not_mem_nil, or_false] at h₁ h₂
        rcases h₁ with rfl | rfl <;> rcases h₂ with rfl | rfl <;>
          first
          | rfl
          | exact absurd heq (by decide))
    (by intro t ht haeq
        simp only [wStore, List.mem_cons, List.not_mem_nil, or_false] at ht
        rcases ht with rfl | rfl <;> exact absurd haeq (by decide))

end GhostBudget
